import Mathlib

/-!
Verification of the BackRooms procedural generation core
(Source/BackRooomsUE57/BackRoomsGenerator, decomposed services version).

Floats are modelled by exact rationals (`ℚ`); Unreal `FVector`/`FBox` by
`Vec3`/`Box3`; `int32` indices by `ℤ` (or `ℕ` where the C++ values are
provably non-negative and only upper bounds are checked).  Pseudorandom
streams (`FRandomStream`, `FMath::RandRange`) are modelled as oracle
functions indexed by successive draw positions.  Names follow the C++
source; `*Ratio` config fields are renamed to `*Frac`.
-/

/-- EWallSide (Types.h). -/
inductive WallSide where
  | none
  | north
  | south
  | east
  | west
deriving DecidableEq, Inhabited

/-- ERoomCategory (Types.h). -/
inductive RoomCategory where
  | room
  | hallway
  | stairs
deriving DecidableEq, Inhabited

/-- EConnectionType (Types.h). -/
inductive ConnectionType where
  | doorway
  | opening
deriving DecidableEq, Inhabited

/-- FVector with exact rational coordinates. -/
structure Vec3 where
  x : ℚ
  y : ℚ
  z : ℚ
deriving DecidableEq, Inhabited

/-- FBox: axis-aligned box given by its componentwise minimum and maximum.
The UE constructor `FBox(Min, Max)` always sets `IsValid = 1`, so no
validity flag is modelled. -/
structure Box3 where
  lo : Vec3
  hi : Vec3
deriving DecidableEq, Inhabited

/-- FRoomConnection (Types.h). -/
structure RoomConnection where
  wallSide : WallSide
  bIsUsed : Bool
  connectionPoint : Vec3
  connectionWidth : ℚ
  connectionType : ConnectionType
  connectedRoomIndex : ℤ
deriving DecidableEq, Inhabited

/-- FRoomData (Types.h).  The `RoomUnit` engine-object pointer is not part
of the algorithmic state and is omitted. -/
structure RoomData where
  category : RoomCategory
  position : Vec3
  width : ℚ
  length : ℚ
  height : ℚ
  elevation : ℚ
  stairDirection : WallSide
  connections : List RoomConnection
  roomIndex : ℤ
deriving DecidableEq, Inhabited

/-- FBackroomGenerationConfig (GenerationConfig.h).  `*Ratio` fields are
renamed `*Frac`; logging-only fields are omitted. -/
structure GenConfig where
  totalRooms : ℤ
  roomFrac : ℚ
  hallwayFrac : ℚ
  stairFrac : ℚ
  maxAttemptsPerConnection : ℤ
  maxConnectionRetries : ℤ
  maxGenerationTime : ℚ
  maxSafetyIterations : ℤ
  standardRoomHeight : ℚ
  wallThickness : ℚ
  collisionBuffer : ℚ
  doorwayConnectionFrac : ℚ
  standardDoorwayWidth : ℚ
  standardDoorwayHeight : ℚ
  minRoomSize : ℚ
  maxRoomSize : ℚ
  minHallwayWidth : ℚ
  maxHallwayWidth : ℚ
  minHallwayLength : ℚ
  maxHallwayLength : ℚ
  shortHallwayFrac : ℚ
  mediumHallwayFrac : ℚ
  longHallwayFrac : ℚ
  mediumHallwayThreshold : ℚ
  longHallwayThreshold : ℚ
  minStairHeight : ℚ
  maxStairHeight : ℚ
deriving DecidableEq, Inhabited

/-- Default member initializers of FBackroomGenerationConfig. -/
def defaultConfig : GenConfig where
  totalRooms := 2
  roomFrac := 0
  hallwayFrac := 0
  stairFrac := 1
  maxAttemptsPerConnection := 5
  maxConnectionRetries := 10
  maxGenerationTime := 20
  maxSafetyIterations := 2000
  standardRoomHeight := 3
  wallThickness := 2/10
  collisionBuffer := 2/100
  doorwayConnectionFrac := 30/100
  standardDoorwayWidth := 8/10
  standardDoorwayHeight := 2
  minRoomSize := 2
  maxRoomSize := 15
  minHallwayWidth := 5/2
  maxHallwayWidth := 5
  minHallwayLength := 12
  maxHallwayLength := 150
  shortHallwayFrac := 2/10
  mediumHallwayFrac := 3/10
  longHallwayFrac := 5/10
  mediumHallwayThreshold := 20
  longHallwayThreshold := 35
  minStairHeight := 2
  maxStairHeight := 6

/-- MetersToUnrealUnits (Types.h): meters to centimeters. -/
def metersToUnrealUnits (m : ℚ) : ℚ := m * 100

/-- FMath::Clamp, written exactly as `(X < Min) ? Min : (X < Max) ? X : Max`. -/
def clampF (x lo hi : ℚ) : ℚ :=
  if x < lo then lo else if x < hi then x else hi

/-- Opposite wall side (the `switch` in CreateRoomConnections and friends);
`none` falls through unchanged. -/
def oppositeSide : WallSide → WallSide
  | .north => .south
  | .south => .north
  | .east => .west
  | .west => .east
  | .none => .none

/-- Wall side assigned to connection slot `i` by the strategies and the
connection manager: `(EWallSide)(i + 1)`, i.e. North, South, East, West. -/
def wallOf : ℕ → WallSide
  | 0 => .north
  | 1 => .south
  | 2 => .east
  | 3 => .west
  | _ => .none

/-- FRoomData::GetBoundingBox (Types.h, lines 309-345).  Wall thickness is
hardcoded to 0.2 m there; stairs extend from `Position.Z` up by
`Height + Elevation`, other categories occupy `[Z + Elevation, Z + Elevation + Height]`. -/
def RoomData.getBoundingBox (r : RoomData) : Box3 :=
  let wallThicknessCm := metersToUnrealUnits (2/10)
  let minZ : ℚ :=
    if r.category = .stairs then r.position.z
    else r.position.z + metersToUnrealUnits r.elevation
  let maxZ : ℚ :=
    if r.category = .stairs then r.position.z + metersToUnrealUnits (r.height + r.elevation)
    else r.position.z + metersToUnrealUnits r.elevation + metersToUnrealUnits r.height
  { lo := ⟨r.position.x - wallThicknessCm, r.position.y - wallThicknessCm, minZ⟩
    hi := ⟨r.position.x + metersToUnrealUnits r.width + wallThicknessCm,
           r.position.y + metersToUnrealUnits r.length + wallThicknessCm, maxZ⟩ }

/-- FBox::Intersect: false as soon as the boxes are strictly separated on
one axis, true otherwise (touching boxes intersect). -/
def boxIntersect (a b : Box3) : Bool :=
  if a.lo.x > b.hi.x ∨ b.lo.x > a.hi.x then false
  else if a.lo.y > b.hi.y ∨ b.lo.y > a.hi.y then false
  else if a.lo.z > b.hi.z ∨ b.lo.z > a.hi.z then false
  else true

/-- FBox::ExpandBy: grow the box by `w` in every direction. -/
def Box3.expandBy (b : Box3) (w : ℚ) : Box3 :=
  { lo := ⟨b.lo.x - w, b.lo.y - w, b.lo.z - w⟩
    hi := ⟨b.hi.x + w, b.hi.y + w, b.hi.z + w⟩ }

/-- FCollisionDetectionService::ValidateRoomBounds.  The final
`RoomBounds.IsValid` test always passes (the FBox two-vector constructor
sets `IsValid = 1`), so it contributes no condition. -/
def validateRoomBounds (r : RoomData) (_cfg : GenConfig) : Bool :=
  if r.width ≤ 0 ∨ r.length ≤ 0 ∨ r.height ≤ 0 then false
  else if r.width > 100 ∨ r.length > 100 ∨ r.height > 100 then false
  else if |r.elevation| > 10000 then false
  else true

/-- FCollisionDetectionService::GetExpandedBounds: candidate box grown by
the collision buffer converted to centimeters. -/
def getExpandedBounds (r : RoomData) (cfg : GenConfig) : Box3 :=
  (r.getBoundingBox).expandBy (cfg.collisionBuffer * 100)

/-- FCollisionDetectionService::InternalCheckCollision (lines 63-135):
invalid test rooms count as collisions; existing rooms are scanned in
order, skipping the excluded index and any existing room that fails
bounds validation; true on the first intersection. -/
def internalCheckCollision (testRoom : RoomData) (existingRooms : List RoomData)
    (excludeRoomIndex : ℤ) (cfg : GenConfig) : Bool :=
  if ¬ validateRoomBounds testRoom cfg then true
  else
    let testBounds := getExpandedBounds testRoom cfg
    existingRooms.enum.any fun p =>
      decide ((p.1 : ℤ) ≠ excludeRoomIndex) &&
      validateRoomBounds p.2 cfg &&
      boxIntersect testBounds p.2.getBoundingBox

/-- FRoomData::GetAvailableConnections: indices of unused connections. -/
def RoomData.getAvailableConnections (r : RoomData) : List ℕ :=
  (List.range r.connections.length).filter fun i =>
    ¬ (r.connections.getD i default).bIsUsed

/-- FRoomConnectionManager::CalculateWallConnectionPoint (lines 233-294).
Stairs get their point on the bottom-end wall (opposite the ascent
direction); any other query falls through to the standard wall centers. -/
def calculateWallConnectionPoint (room : RoomData) (ws : WallSide) (_cfg : GenConfig) : Vec3 :=
  let center : Vec3 :=
    ⟨room.position.x + room.width * 100 * (1/2),
     room.position.y + room.length * 100 * (1/2),
     room.position.z + room.elevation * 100⟩
  let special : Option Vec3 :=
    if room.category = .stairs then
      match room.stairDirection, ws with
      | .north, .south => some ⟨center.x, center.y - room.length * 100 * (1/2), center.z⟩
      | .south, .north => some ⟨center.x, center.y + room.length * 100 * (1/2), center.z⟩
      | .east, .west => some ⟨center.x - room.width * 100 * (1/2), center.y, center.z⟩
      | .west, .east => some ⟨center.x + room.width * 100 * (1/2), center.y, center.z⟩
      | _, _ => Option.none
    else Option.none
  match special with
  | some p => p
  | Option.none =>
    match ws with
    | .north => ⟨center.x, center.y + room.length * 100 * (1/2), center.z⟩
    | .south => ⟨center.x, center.y - room.length * 100 * (1/2), center.z⟩
    | .east => ⟨center.x + room.width * 100 * (1/2), center.y, center.z⟩
    | .west => ⟨center.x - room.width * 100 * (1/2), center.y, center.z⟩
    | .none => center

/-- FRoomConnectionManager::CreateRoomConnections (lines 96-140): stairs
get a single connection on the wall opposite the ascent direction,
other categories one per wall; every connection starts unused with the
configured standard doorway width. -/
def createRoomConnections (room : RoomData) (cfg : GenConfig) : RoomData :=
  let wallSides : List WallSide :=
    if room.category = .stairs then [oppositeSide room.stairDirection]
    else [.north, .south, .east, .west]
  let conns := wallSides.map fun ws =>
    { wallSide := ws
      bIsUsed := false
      connectionType := ConnectionType.doorway
      connectionWidth := cfg.standardDoorwayWidth
      connectedRoomIndex := -1
      connectionPoint := calculateWallConnectionPoint room ws cfg : RoomConnection }
  { room with connections := conns }

/-- FRoomConnectionManager::CalculateConnectionPosition (lines 142-222).
An invalid connection index yields the zero vector.  The vertical offset
is `-Elevation` (in cm) when the source is a stairs unit, otherwise the
difference that keeps the new room on the source floor.  A `None` wall
side leaves the offset at zero (the C++ `switch` has no such case). -/
def calculateConnectionPosition (sourceRoom : RoomData) (connectionIndex : ℕ)
    (newRoom : RoomData) (cfg : GenConfig) : Vec3 :=
  if connectionIndex ≥ sourceRoom.connections.length then ⟨0, 0, 0⟩
  else
    let c := sourceRoom.connections.getD connectionIndex default
    let p := c.connectionPoint
    let zOffset : ℚ :=
      if sourceRoom.category = .stairs then -(newRoom.elevation * 100)
      else sourceRoom.position.z - p.z
    let wt := cfg.wallThickness * 100
    let gap : ℚ := 100 * (1/100)
    let offset : Vec3 :=
      match c.wallSide with
      | .north => ⟨-(newRoom.width * 100 * (1/2)), wt + gap, zOffset⟩
      | .south => ⟨-(newRoom.width * 100 * (1/2)), -(newRoom.length * 100) - wt - gap, zOffset⟩
      | .east => ⟨wt + gap, -(newRoom.length * 100 * (1/2)), zOffset⟩
      | .west => ⟨-(newRoom.width * 100) - wt - gap, -(newRoom.length * 100 * (1/2)), zOffset⟩
      | .none => ⟨0, 0, 0⟩
    ⟨p.x + offset.x, p.y + offset.y, p.z + offset.z⟩

/-- FRoomConnectionManager::HandleStairsElevation (lines 343-354): a
candidate connected to a stairs source inherits the source elevation. -/
def handleStairsElevation (sourceRoom newRoom : RoomData) : RoomData :=
  if sourceRoom.category = .stairs then { newRoom with elevation := sourceRoom.elevation }
  else newRoom

/-- FRoomConnectionManager::GetWallSize: North/South walls span the
width, East/West walls the length; fallback is the width. -/
def getWallSize (room : RoomData) (ws : WallSide) : ℚ :=
  match ws with
  | .north => room.width
  | .south => room.width
  | .east => room.length
  | .west => room.length
  | .none => room.width

/-- The `Connections.Num() > 0 ? Connections[0].WallSide : North` wall-side
selection inside DetermineConnectionProperties. -/
def firstWallSide (room : RoomData) : WallSide :=
  match room.connections with
  | [] => .north
  | c :: _ => c.wallSide

/-- FRoomConnectionManager::DetermineConnectionProperties (lines 296-326).
The two fresh random draws of the C++ (`FRand` for the type,
`FRandRange(0.6, 0.8)` for the opening share) are passed in as `typeDraw`
and `openDraw` (the latter scaled from `[0,1]`). -/
def determineConnectionProperties (room1 room2 : RoomData) (cfg : GenConfig)
    (typeDraw openDraw : ℚ) : ConnectionType × ℚ :=
  if typeDraw < cfg.doorwayConnectionFrac then
    (ConnectionType.doorway, cfg.standardDoorwayWidth)
  else
    let room1WallSize := getWallSize room1 (firstWallSide room1)
    let room2WallSize := getWallSize room2 (firstWallSide room2)
    let smallestWall := min room1WallSize room2WallSize
    let openingShare := 6/10 + (8/10 - 6/10) * openDraw
    (ConnectionType.opening,
     clampF (smallestWall * openingShare) cfg.standardDoorwayWidth (smallestWall * (9/10)))

/-- FRoomConnectionManager::ConnectRooms (lines 54-94): invalid indices
log and return both rooms unchanged; otherwise both connections are
marked used with the same type/width and mutual room indices.
`CreatePhysicalConnection` only acts on engine objects and has no
modelled effect. -/
def connectRooms (room1 : RoomData) (connection1Index : ℕ) (room2 : RoomData)
    (connection2Index : ℕ) (cfg : GenConfig) (typeDraw openDraw : ℚ) :
    RoomData × RoomData :=
  if connection1Index ≥ room1.connections.length ∨
     connection2Index ≥ room2.connections.length then (room1, room2)
  else
    let tw := determineConnectionProperties room1 room2 cfg typeDraw openDraw
    let c1 := room1.connections.getD connection1Index default
    let c2 := room2.connections.getD connection2Index default
    let c1' := { c1 with bIsUsed := true, connectionType := tw.1, connectionWidth := tw.2,
                         connectedRoomIndex := room2.roomIndex }
    let c2' := { c2 with bIsUsed := true, connectionType := tw.1, connectionWidth := tw.2,
                         connectedRoomIndex := room1.roomIndex }
    let room1' := { room1 with connections := room1.connections.set connection1Index c1' }
    let room2' := { room2 with connections := room2.connections.set connection2Index c2' }
    (room1', room2')

/-- FRoomConnectionManager::TryPlaceRoom (lines 9-52).  The room creator
callback has C++ type `TFunction<void(FRoomData&)>`; it is modelled as a
state transformer on the room and its (nonexistent) return value is
never consulted.  `positionedRoom` is the candidate after
HandleStairsElevation and CalculateConnectionPosition (lines 22-28). -/
def positionedRoom (sourceRoom : RoomData) (connectionIndex : ℕ) (newRoom : RoomData)
    (cfg : GenConfig) : RoomData :=
  let r1 := handleStairsElevation sourceRoom newRoom
  { r1 with position := calculateConnectionPosition sourceRoom connectionIndex r1 cfg }

/-- FRoomConnectionManager::TryPlaceRoom continued: collision test against
the existing rooms excluding the source, then connection creation and the
creator callback. -/
def tryPlaceRoom (sourceRoom : RoomData) (connectionIndex : ℕ) (newRoom : RoomData)
    (existingRooms : List RoomData) (cfg : GenConfig)
    (roomCreator : RoomData → RoomData) : Bool × RoomData :=
  let r2 := positionedRoom sourceRoom connectionIndex newRoom cfg
  if internalCheckCollision r2 existingRooms sourceRoom.roomIndex cfg then (false, r2)
  else
    let r3 := createRoomConnections r2 cfg
    let r4 := roomCreator r3
    (true, r4)

/-- FGenerationOrchestrator::DetermineRoomCategory (lines 310-357).  The
random draw is `randomValue`; with a stairs source only the renormalized
room/hallway split is used.  In `ℚ`, a zero denominator gives `0` and the
draw falls to Hallway, matching the float build where `0/0 = NaN` makes
the comparison false. -/
def determineRoomCategory (sourceCategory : RoomCategory) (cfg : GenConfig)
    (randomValue : ℚ) : RoomCategory :=
  if sourceCategory = .stairs then
    let adjustedRoomFrac := cfg.roomFrac / (cfg.roomFrac + cfg.hallwayFrac)
    if randomValue < adjustedRoomFrac then .room else .hallway
  else
    if randomValue < cfg.roomFrac then .room
    else if randomValue < cfg.roomFrac + cfg.hallwayFrac then .hallway
    else .stairs

/-- FGenerationOrchestrator::GetOppositeWallIndex (lines 470-490):
0 ↔ 1, 2 ↔ 3, default 0. -/
def getOppositeWallIndex (wallIndex : ℕ) : ℕ :=
  match wallIndex with
  | 0 => 1
  | 1 => 0
  | 2 => 3
  | 3 => 2
  | _ => 0

/-- FRandomStream, modelled as two indexed oracle streams: `frand i` is
the i-th `FRand`-based draw (intended range `[0, 1]`), `irand i` the i-th
integer `RandRange(0, 1)` draw. -/
structure Rng where
  frand : ℕ → ℚ
  irand : ℕ → ℤ

/-- FRandomStream::FRandRange: `a + (b - a) * FRand()`, using draw `i`. -/
def frandRange (rng : Rng) (i : ℕ) (a b : ℚ) : ℚ :=
  a + (b - a) * rng.frand i

/-- IRoomGenerationStrategy::InitializeBaseRoomData (IRoomGenerationStrategy.h,
lines 96-109); the FRoomData width/length defaults are zero. -/
def initializeBaseRoomData (category : RoomCategory) (roomIndex : ℤ)
    (cfg : GenConfig) : RoomData where
  category := category
  roomIndex := roomIndex
  height := cfg.standardRoomHeight
  elevation := 0
  stairDirection := .none
  position := ⟨0, 0, 0⟩
  connections := []
  width := 0
  length := 0

/-- FStandardRoomStrategy::ValidateRoomDimensions. -/
def validateRoomDimensions (cfg : GenConfig) (width length : ℚ) : Bool :=
  if width < 1/2 ∨ length < 1/2 ∨ width > 100 ∨ length > 100 then false
  else
    let minSize := max (1/2) cfg.minRoomSize
    let maxSize := min 100 cfg.maxRoomSize
    if width < minSize ∨ width > maxSize ∨ length < minSize ∨ length > maxSize then false
    else
      let aspect := max width length / max (1/10) (min width length)
      if aspect > 3 then false else true

/-- FStandardRoomStrategy::GenerateStandardRoomDimensions.  Draw order:
`frand 0` for the base size, `frand 1` for the variation share,
`irand 0` for the dimension choice. -/
def generateStandardRoomDimensions (cfg : GenConfig) (rng : Rng) : ℚ × ℚ :=
  let minSize := max 1 cfg.minRoomSize
  let maxSize := max (minSize + 1/2) cfg.maxRoomSize
  let baseSize := frandRange rng 0 minSize maxSize
  let variationShare := frandRange rng 1 0 (2/10)
  let variation := baseSize * variationShare
  let wl : ℚ × ℚ :=
    if rng.irand 0 = 0 then (baseSize, baseSize + variation)
    else (baseSize + variation, baseSize)
  let w := clampF wl.1 minSize maxSize
  let l := clampF wl.2 minSize maxSize
  if validateRoomDimensions cfg w l then (w, l)
  else (clampF baseSize minSize maxSize, clampF baseSize minSize maxSize)

/-- FStandardRoomStrategy::CreateStandardRoomConnections: four unused
connections, one per wall, with a hardcoded 0.8 m default width. -/
def createStandardRoomConnections (room : RoomData) : RoomData :=
  { room with connections := (List.range 4).map fun i =>
      { wallSide := wallOf i
        bIsUsed := false
        connectionPoint := ⟨0, 0, 0⟩
        connectionWidth := 8/10
        connectionType := ConnectionType.doorway
        connectedRoomIndex := -1 } }

/-- FStandardRoomStrategy::GenerateRoom. -/
def standardGenerateRoom (cfg : GenConfig) (roomIndex : ℤ) (rng : Rng) : RoomData :=
  let base := initializeBaseRoomData .room roomIndex cfg
  let wl := generateStandardRoomDimensions cfg rng
  createStandardRoomConnections { base with width := wl.1, length := wl.2 }

/-- FHallwayStrategy::ValidateHallwayDimensions. -/
def validateHallwayDimensions (cfg : GenConfig) (width length : ℚ) : Bool :=
  if width < 1 ∨ length < 1 ∨ width > 100 ∨ length > 100 then false
  else
    let minWidth := max 1 cfg.minHallwayWidth
    let maxWidth := min 100 cfg.maxHallwayWidth
    let minLength := max 1 cfg.minHallwayLength
    let maxLength := min 100 cfg.maxHallwayLength
    if width < minWidth ∨ width > maxWidth ∨ length < minLength ∨ length > maxLength then false
    else
      let aspect := max width length / max (1/10) (min width length)
      if aspect < 12/10 then false
      else if aspect > 10 then false
      else true

/-- FHallwayStrategy::GenerateHallwayDimensions.  Draw order: `frand 0`
width, `frand 1` length-category draw, `frand 2` length, `frand 3`
orientation swap, `frand 4` fallback length. -/
def generateHallwayDimensions (cfg : GenConfig) (rng : Rng) : ℚ × ℚ :=
  let minWidth := max 1 cfg.minHallwayWidth
  let maxWidth := max (minWidth + 1/2) cfg.maxHallwayWidth
  let w0 := frandRange rng 0 minWidth maxWidth
  let randomValue := rng.frand 1
  let totalShare0 := cfg.shortHallwayFrac + cfg.mediumHallwayFrac + cfg.longHallwayFrac
  let totalShare := if totalShare0 ≤ 0 then 1 else totalShare0
  let normShort := cfg.shortHallwayFrac / totalShare
  let normMedium := cfg.mediumHallwayFrac / totalShare
  let l0 : ℚ :=
    if randomValue < normShort then
      frandRange rng 2 (max 2 cfg.minHallwayLength) (min cfg.mediumHallwayThreshold cfg.maxHallwayLength)
    else if randomValue < normShort + normMedium then
      frandRange rng 2 cfg.mediumHallwayThreshold (min cfg.longHallwayThreshold cfg.maxHallwayLength)
    else
      frandRange rng 2 cfg.longHallwayThreshold cfg.maxHallwayLength
  let minRequiredLength := w0 * 2
  let l1 := if l0 < minRequiredLength
            then clampF minRequiredLength cfg.minHallwayLength cfg.maxHallwayLength
            else l0
  let wl : ℚ × ℚ := if rng.frand 3 < 25/100 then (l1, w0) else (w0, l1)
  if validateHallwayDimensions cfg wl.1 wl.2 then wl
  else (clampF minWidth (5/2) maxWidth, frandRange rng 4 cfg.longHallwayThreshold cfg.maxHallwayLength)

/-- FHallwayStrategy::CreateHallwayConnections: identical layout to the
standard room connections. -/
def createHallwayConnections (room : RoomData) : RoomData :=
  createStandardRoomConnections room

/-- FHallwayStrategy::GenerateRoom. -/
def hallwayGenerateRoom (cfg : GenConfig) (roomIndex : ℤ) (rng : Rng) : RoomData :=
  let base := initializeBaseRoomData .hallway roomIndex cfg
  let wl := generateHallwayDimensions cfg rng
  createHallwayConnections { base with width := wl.1, length := wl.2 }

/-- FStairsStrategy::ValidateStairsDimensions. -/
def validateStairsDimensions (cfg : GenConfig) (width length : ℚ) : Bool :=
  if width < 2 ∨ length < 2 ∨ width > 100 ∨ length > 100 then false
  else
    let minSize := max (5/2) cfg.minRoomSize
    let maxSize := min 100 cfg.maxRoomSize
    if width < minSize ∨ width > maxSize ∨ length < minSize ∨ length > maxSize then false
    else
      let aspect := max width length / max (1/10) (min width length)
      if aspect > 2 then false
      else if width < 5/2 ∨ length < 5/2 then false
      else true

/-- FStairsStrategy::GenerateStairsDimensions.  Draw order: `frand 0`
base size, `frand 1` variation share, `irand 0` dimension choice,
`irand 1` variation sign. -/
def generateStairsDimensions (cfg : GenConfig) (rng : Rng) : ℚ × ℚ :=
  let minSize := max (5/2) cfg.minRoomSize
  let maxSize := max (minSize + 1) (min cfg.maxRoomSize 12)
  let baseSize := frandRange rng 0 minSize maxSize
  let variationShare := frandRange rng 1 0 (1/10)
  let variation := baseSize * variationShare
  let signedVariation := if rng.irand 1 = 0 then variation else -variation
  let wl : ℚ × ℚ :=
    if rng.irand 0 = 0 then (baseSize, baseSize + signedVariation)
    else (baseSize + signedVariation, baseSize)
  let w := clampF wl.1 minSize maxSize
  let l := clampF wl.2 minSize maxSize
  if validateStairsDimensions cfg w l then (w, l)
  else (clampF baseSize minSize maxSize, clampF baseSize minSize maxSize)

/-- FStairsStrategy::CreateStairsConnections (lines 146-177): four slots
(`CONNECTIONS_PER_ROOM = 4`), one per wall; the wall carrying the stairs
is marked used with width 0 so it can never be connected. -/
def createStairsConnections (room : RoomData) (stairDirection : WallSide) : RoomData :=
  { room with connections := (List.range 4).map fun i =>
      let ws := wallOf i
      { wallSide := ws
        bIsUsed := ws = stairDirection
        connectionPoint := ⟨0, 0, 0⟩
        connectionWidth := if ws = stairDirection then 0 else 8/10
        connectionType := ConnectionType.doorway
        connectedRoomIndex := -1 } }

/-- FStairsStrategy::CalculateStairElevation: an elevation change drawn
from the configured stair-height range, converted to centimeters and
negated when going down. -/
def calculateStairElevation (cfg : GenConfig) (draw : ℚ) (bGoingUp : Bool) : ℚ :=
  let minHeight := max 1 cfg.minStairHeight
  let maxHeight := max (minHeight + 1/2) cfg.maxStairHeight
  let elevationChange := (minHeight + (maxHeight - minHeight) * draw) * 100
  if bGoingUp then elevationChange else -elevationChange

/-- FStairsStrategy::GenerateRoom (lines 5-30).  The ascent direction is
drawn from the global `FMath::RandRange(0, 3)` stream `pick` at cursor
`pickIdx` (returned incremented); `irand 2` decides up versus down and
`frand 2` the elevation magnitude. -/
def stairsGenerateRoom (cfg : GenConfig) (roomIndex : ℤ) (rng : Rng)
    (pick : ℕ → ℕ) (pickIdx : ℕ) : RoomData × ℕ :=
  let base := initializeBaseRoomData .stairs roomIndex cfg
  let wl := generateStairsDimensions cfg rng
  let dir := [WallSide.north, WallSide.south, WallSide.east, WallSide.west].getD
    (pick pickIdx % 4) .north
  let bGoingUp := rng.irand 2 = 0
  let elev := calculateStairElevation cfg (rng.frand 2) bGoingUp
  let room := { base with width := wl.1, length := wl.2,
                          stairDirection := dir, elevation := elev }
  (createStairsConnections room dir, pickIdx + 1)

/-- The `DummyConfig` built inside GenerationOrchestrator.cpp lines
447-454: default-constructed configuration with seven fields overridden. -/
def dummyConfig : GenConfig :=
  { defaultConfig with
      standardRoomHeight := 3
      minRoomSize := 2
      maxRoomSize := 8
      minHallwayWidth := 5/2
      maxHallwayWidth := 5
      minHallwayLength := 4
      maxHallwayLength := 12 }

/-- FGenerationOrchestrator::GenerateRoomOfCategory (lines 436-468).  The
factory always yields a strategy, which is invoked through the
standalone `GenerateRoom` path on `dummyConfig`; the source room and
connection index parameters are received but unused, exactly as in the
C++.  Returns the room and the advanced global-pick cursor. -/
def generateRoomOfCategory (category : RoomCategory) (roomIndex : ℤ)
    (_sourceRoom : Option RoomData) (_connectionIndex : ℕ) (rng : Rng)
    (pick : ℕ → ℕ) (pickIdx : ℕ) : RoomData × ℕ :=
  match category with
  | .room => (standardGenerateRoom dummyConfig roomIndex rng, pickIdx)
  | .hallway => (hallwayGenerateRoom dummyConfig roomIndex rng, pickIdx)
  | .stairs => stairsGenerateRoom dummyConfig roomIndex rng pick pickIdx

/-- Nondeterministic inputs of one generation run, as indexed oracle
streams: `time i` is the i-th `FPlatformTime::Seconds()` reading,
`pick i` the i-th global `FMath::RandRange(0, N-1)` draw (reduced mod N
at the use site), `catDraw i` the i-th `FRand` of the orchestrator's
random stream (DetermineRoomCategory), `rng i` the fresh
time-seeded `FRandomStream` of the i-th GenerateRoomOfCategory call,
and `typeDraw i` / `openDraw i` the fresh stream draws of the i-th
DetermineConnectionProperties call. -/
structure Oracle where
  time : ℕ → ℚ
  pick : ℕ → ℕ
  catDraw : ℕ → ℚ
  rng : ℕ → Rng
  typeDraw : ℕ → ℚ
  openDraw : ℕ → ℚ

/-- State of FGenerationOrchestrator::ExecuteProceduralGeneration:
the room list, the available-room index list, the three safety counters,
timing, the stopped-by-safety flag, plus (a) a `crashed` flag modelling a
`TArray` range-check assertion failure (out-of-bounds `operator[]`),
(b) the ghost commit log `srcLog` (`srcLog[j]` = list position of the
source room of the room committed at list position `j + 1`), and
(c) oracle cursors. -/
structure GenState where
  rooms : List RoomData
  srcLog : List ℕ
  available : List ℕ
  mainCtr : ℕ
  connCtr : ℕ
  placCtr : ℕ
  startTime : ℚ
  elapsed : ℚ
  stopped : Bool
  crashed : Bool
  tIdx : ℕ
  pIdx : ℕ
  cIdx : ℕ
  rIdx : ℕ
  dIdx : ℕ

/-- FGenerationOrchestrator::CheckSafetyLimits (lines 234-298): reads the
clock, then trips (setting the stopped-by-safety flag) when the elapsed
time strictly exceeds MaxGenerationTime or any of the three counters has
reached MaxSafetyIterations. -/
def checkSafetyLimits (cfg : GenConfig) (o : Oracle) (st : GenState) : Bool × GenState :=
  let now := o.time st.tIdx
  let st := { st with tIdx := st.tIdx + 1, elapsed := now - st.startTime }
  if st.elapsed > cfg.maxGenerationTime then (true, { st with stopped := true })
  else if (st.mainCtr : ℤ) ≥ cfg.maxSafetyIterations then (true, { st with stopped := true })
  else if (st.connCtr : ℤ) ≥ cfg.maxSafetyIterations then (true, { st with stopped := true })
  else if (st.placCtr : ℤ) ≥ cfg.maxSafetyIterations then (true, { st with stopped := true })
  else (false, st)

/-- FGenerationOrchestrator::CleanupAvailableRooms: drop indices that are
out of range or whose room has no open connection left. -/
def cleanupAvailableRooms (available : List ℕ) (rooms : List RoomData) : List ℕ :=
  available.filter fun i =>
    i < rooms.length ∧ (rooms.getD i default).getAvailableConnections ≠ []

/-- FGenerationOrchestrator::TryGenerateConnectedRoom (lines 359-413):
up to MaxAttemptsPerConnection placement attempts; each attempt bumps
the placement counter, checks the safety limits (returning failure on a
trip), draws a category, generates a candidate through
GenerateRoomOfCategory and hands it to TryPlaceRoom; on success the
placed room is appended to the room list (and the ghost source log
records `srcPos`). -/
def tryGenerateConnectedRoom (cfg : GenConfig) (o : Oracle)
    (roomCreator : RoomData → RoomData) (roomIndex : ℕ) (srcPos : ℕ) (connIdx : ℕ) :
    ℕ → GenState → Bool × GenState
  | 0, st => (false, st)
  | n + 1, st =>
    let st0 := { st with placCtr := st.placCtr + 1 }
    let cs := checkSafetyLimits cfg o st0
    if cs.1 then (false, cs.2)
    else
      let st := cs.2
      let sourceRoom := st.rooms.getD srcPos default
      let category := determineRoomCategory sourceRoom.category cfg (o.catDraw st.cIdx)
      let st := { st with cIdx := st.cIdx + 1 }
      let gen := generateRoomOfCategory category (roomIndex : ℤ)
        (if category = .stairs then some sourceRoom else Option.none) connIdx
        (o.rng st.rIdx) o.pick st.pIdx
      let st := { st with rIdx := st.rIdx + 1, pIdx := gen.2 }
      let placedPair := tryPlaceRoom sourceRoom connIdx gen.1 st.rooms cfg roomCreator
      if placedPair.1 then
        (true, { st with rooms := st.rooms ++ [placedPair.2],
                         srcLog := st.srcLog ++ [srcPos] })
      else
        tryGenerateConnectedRoom cfg o roomCreator roomIndex srcPos connIdx n st

/-- The post-placement bookkeeping of a successful connection-retry
iteration (lines 131-163): append the new index to the available list
when it is below TotalRooms, then — after the `OutGeneratedRooms[RoomIndex]`
range check, whose failure is the modelled crash — connect the source
and the new room at `GetOppositeWallIndex(connIdx)`. -/
def connectionCommitCore (cfg : GenConfig) (o : Oracle) (roomIndex srcPos connIdx : ℕ)
    (st1 : GenState) : GenState :=
  if roomIndex < st1.rooms.length then
    let conn := connectRooms (st1.rooms.getD srcPos default) connIdx
      (st1.rooms.getD roomIndex default) (getOppositeWallIndex connIdx) cfg
      (o.typeDraw st1.dIdx) (o.openDraw st1.dIdx)
    { st1 with rooms := (st1.rooms.set srcPos conn.1).set roomIndex conn.2,
               dIdx := st1.dIdx + 1 }
  else { st1 with crashed := true }

def connectionCommit (cfg : GenConfig) (o : Oracle) (roomIndex srcPos connIdx : ℕ)
    (st : GenState) : GenState :=
  connectionCommitCore cfg o roomIndex srcPos connIdx
    (if (roomIndex : ℤ) < cfg.totalRooms
     then { st with available := st.available ++ [roomIndex] } else st)

/-- The connection-retry `while` loop of ExecuteProceduralGeneration
(lines 74-172).  `retries` is the local `ConnectionRetries` counter; the
loop runs while `retries < MaxConnectionRetries` and rooms are
available (the emergency-exit breaks are modelled by the early returns
after a tripped check).  The fuel argument only pads the recursion and
never runs out before the retry bound does.  On a successful placement
the bookkeeping of `connectionCommit` runs. -/
def connectionRetryLoop (cfg : GenConfig) (o : Oracle)
    (roomCreator : RoomData → RoomData) (roomIndex : ℕ) :
    ℕ → ℤ → GenState → Bool × GenState
  | 0, _, st => (false, st)
  | fuel + 1, retries, st =>
    if retries < cfg.maxConnectionRetries ∧ st.available ≠ [] then
      let retries := retries + 1
      let st0 := { st with connCtr := st.connCtr + 1 }
      let cs := checkSafetyLimits cfg o st0
      if cs.1 then (false, cs.2)
      else
        let st := cs.2
        let srcPos := st.available.getD (o.pick st.pIdx % st.available.length) 0
        let st := { st with pIdx := st.pIdx + 1 }
        if srcPos ≥ st.rooms.length then
          connectionRetryLoop cfg o roomCreator roomIndex fuel retries st
        else
          let sourceRoom := st.rooms.getD srcPos default
          let avail := sourceRoom.getAvailableConnections
          if avail = [] then
            connectionRetryLoop cfg o roomCreator roomIndex fuel (retries + 1) st
          else
            let connIdx := avail.getD (o.pick st.pIdx % avail.length) 0
            let st := { st with pIdx := st.pIdx + 1 }
            let res := tryGenerateConnectedRoom cfg o roomCreator roomIndex srcPos connIdx
              cfg.maxAttemptsPerConnection.toNat st
            if res.1 then
              (true, connectionCommit cfg o roomIndex srcPos connIdx res.2)
            else
              connectionRetryLoop cfg o roomCreator roomIndex fuel retries res.2
    else (false, st)

/-- The main `for` loop of ExecuteProceduralGeneration (lines 48-184),
one fuel unit per target room index.  Each iteration requires a
non-empty available list, bumps the main counter, checks the safety
limits (break on trip), runs the connection-retry loop, and — unless
the run crashed — prunes the available list and continues while the
stopped flag is clear. -/
def mainLoop (cfg : GenConfig) (o : Oracle) (roomCreator : RoomData → RoomData) :
    ℕ → ℕ → GenState → GenState
  | 0, _, st => st
  | n + 1, roomIndex, st =>
    if st.available = [] then st
    else
      let st0 := { st with mainCtr := st.mainCtr + 1 }
      let cs := checkSafetyLimits cfg o st0
      if cs.1 then cs.2
      else
        let st := cs.2
        let res := connectionRetryLoop cfg o roomCreator roomIndex
          (cfg.maxConnectionRetries.toNat + 1) 0 st
        let st := res.2
        if st.crashed then st
        else
          let st := { st with available := cleanupAvailableRooms st.available st.rooms }
          if st.stopped then st
          else mainLoop cfg o roomCreator n (roomIndex + 1) st

/-- FGenerationOrchestrator::ExecuteProceduralGeneration (lines 9-207):
initialize counters and the clock, seed the room list with the initial
room and the available list with index 0, run the main loop for target
indices 1 .. TotalRooms-1, and take a final clock reading for the
statistics. -/
def executeProceduralGeneration (initialRoom : RoomData) (cfg : GenConfig)
    (o : Oracle) (roomCreator : RoomData → RoomData) : GenState :=
  let st0 : GenState :=
    { rooms := [initialRoom]
      srcLog := []
      available := [0]
      mainCtr := 0
      connCtr := 0
      placCtr := 0
      startTime := o.time 0
      elapsed := 0
      stopped := false
      crashed := false
      tIdx := 1
      pIdx := 0
      cIdx := 0
      rIdx := 0
      dIdx := 0 }
  let st := mainLoop cfg o roomCreator (cfg.totalRooms - 1).toNat 1 st0
  { st with elapsed := o.time st.tIdx - st.startTime, tIdx := st.tIdx + 1 }

/-- The caller-supplied initial unit (Main.cpp CreateInitialRoom): a 5x5x3 m
Room at index 0, placed here at the origin, with the standard
four-wall connections. -/
def callerInitialRoom (cfg : GenConfig) : RoomData :=
  createRoomConnections
    { category := .room
      position := ⟨0, 0, 0⟩
      width := 5
      length := 5
      height := 3
      elevation := 0
      stairDirection := .none
      connections := []
      roomIndex := 0 } cfg

/-- All-zero random stream. -/
def zeroRng : Rng where
  frand := fun _ => 0
  irand := fun _ => 0

/-- Oracle whose every draw is zero (clock frozen at 0). -/
def zeroOracle : Oracle where
  time := fun _ => 0
  pick := fun _ => 0
  catDraw := fun _ => 0
  rng := fun _ => zeroRng
  typeDraw := fun _ => 0
  openDraw := fun _ => 0

/-- Default configuration steered to 100% standard rooms. -/
def cfgRoomOnly : GenConfig :=
  { defaultConfig with roomFrac := 1, hallwayFrac := 0, stairFrac := 0 }

/-- Room-only configuration asking for three units. -/
def cfg3 : GenConfig :=
  { cfgRoomOnly with totalRooms := 3 }

/-- Concrete state whose main counter has reached the default safety
ceiling: the next safety check must trip. -/
def stTrip : GenState :=
  { rooms := []
    srcLog := []
    available := [0]
    mainCtr := 2000
    connCtr := 0
    placCtr := 0
    startTime := 0
    elapsed := 0
    stopped := false
    crashed := false
    tIdx := 0
    pIdx := 0
    cIdx := 0
    rIdx := 0
    dIdx := 0 }

/-- Oracle for the stairs scenario: the connection pick (global draw 1)
selects connection index 1 (the South wall of the initial room); every
other draw is zero, so the stairs ascend North. -/
def stairsOracle : Oracle :=
  { zeroOracle with pick := fun i => if i = 1 then 1 else 0 }

/-- FCollisionDetectionService::AreRoomsOnDifferentLevels: elevation
difference strictly above the separation threshold (default argument
200 = 2 m in the C++). -/
def areRoomsOnDifferentLevels (room1 room2 : RoomData) (minSeparation : ℚ) : Bool :=
  |room1.elevation - room2.elevation| > minSeparation

/-- A unit builder in the sense of the spec (§6): it returns the
materialized room together with a success report.  The orchestrator's
callback type is `TFunction<void(FRoomData&)>`, so TryPlaceRoom can only
receive the room-transformer part; the report has no channel. -/
def tryPlaceRoomWithBuilder (sourceRoom : RoomData) (connectionIndex : ℕ)
    (newRoom : RoomData) (existingRooms : List RoomData) (cfg : GenConfig)
    (builder : RoomData → RoomData × Bool) : Bool × RoomData :=
  tryPlaceRoom sourceRoom connectionIndex newRoom existingRooms cfg fun r => (builder r).1

/-- Wall-side layout of a committed unit's connections, as produced by
CreateRoomConnections: a Stairs unit carries exactly the single
connection on the wall opposite its (non-None) ascent direction, any
other unit one connection per wall in N/S/E/W order. -/
def connShapeOK (r : RoomData) : Bool :=
  if r.category = .stairs then
    decide (r.connections.map RoomConnection.wallSide = [oppositeSide r.stairDirection]) &&
    decide (r.stairDirection ≠ WallSide.none)
  else
    decide (r.connections.map RoomConnection.wallSide =
      [WallSide.north, WallSide.south, WallSide.east, WallSide.west])

/-- Well-formedness of the caller-supplied initial unit (spec lifecycle:
index 0, valid bounds, standard connections). -/
def initRoomOK (cfg : GenConfig) (r : RoomData) : Bool :=
  decide (r.roomIndex = 0) && validateRoomBounds r cfg && connShapeOK r

/-- Run invariant maintained by the orchestrator loop over the committed
room list and the ghost source log. -/
structure RunInv (cfg : GenConfig) (st : GenState) : Prop where
  logLen : st.srcLog.length + 1 = st.rooms.length
  idx : ∀ k, k < st.rooms.length → (st.rooms.getD k default).roomIndex = (k : ℤ)
  valid : ∀ k, k < st.rooms.length → validateRoomBounds (st.rooms.getD k default) cfg = true
  shape : ∀ k, k < st.rooms.length → connShapeOK (st.rooms.getD k default) = true
  srcLt : ∀ j, j < st.srcLog.length → st.srcLog.getD j 0 < j + 1
  noStairPair : ∀ j, j < st.srcLog.length →
    (st.rooms.getD (j + 1) default).category = .stairs →
    (st.rooms.getD (st.srcLog.getD j 0) default).category ≠ .stairs
  sep : ∀ i j, i < j → j < st.rooms.length → st.srcLog.getD (j - 1) 0 ≠ i →
    boxIntersect (getExpandedBounds (st.rooms.getD j default) cfg)
      ((st.rooms.getD i default).getBoundingBox) = false


/-- Everything the success branch of TryGenerateConnectedRoom guarantees
about the newly committed room, relative to the pre-commit room list. -/
def CommitOK (cfg : GenConfig) (stRooms : List RoomData) (srcPos roomIndex : ℕ)
    (placed : RoomData) : Prop :=
  placed.roomIndex = (roomIndex : ℤ) ∧
  validateRoomBounds placed cfg = true ∧
  connShapeOK placed = true ∧
  (placed.category = .stairs → (stRooms.getD srcPos default).category ≠ .stairs) ∧
  ∀ i, i < stRooms.length → i ≠ srcPos →
    boxIntersect (getExpandedBounds placed cfg)
      ((stRooms.getD i default).getBoundingBox) = false

/-- Claim C7: the collision bounding box has vertical extent
[position.z, position.z + (height + elevation) cm] for Stairs (elevation
added on top) and [position.z + elevation, position.z + elevation + height]
for Room/Hallway, with the horizontal footprint expanded by the 0.2 m
wall-thickness margin on each side. -/
theorem c7_bounding_box_extents (r : RoomData) :
    (r.category = .stairs →
      r.getBoundingBox.lo.z = r.position.z ∧
      r.getBoundingBox.hi.z = r.position.z + (r.height + r.elevation) * 100) ∧
    (r.category ≠ .stairs →
      r.getBoundingBox.lo.z = r.position.z + r.elevation * 100 ∧
      r.getBoundingBox.hi.z = r.position.z + r.elevation * 100 + r.height * 100) ∧
    (r.getBoundingBox.lo.x = r.position.x - (2/10) * 100 ∧
     r.getBoundingBox.hi.x = r.position.x + r.width * 100 + (2/10) * 100 ∧
     r.getBoundingBox.lo.y = r.position.y - (2/10) * 100 ∧
     r.getBoundingBox.hi.y = r.position.y + r.length * 100 + (2/10) * 100) := by
  refine ⟨fun h => ⟨?_, ?_⟩, fun h => ⟨?_, ?_⟩, ?_, ?_, ?_, ?_⟩ <;>
    simp [RoomData.getBoundingBox, metersToUnrealUnits, *]

/-- Witness for C7 at two concrete rooms (a Room and a Stairs unit). -/
theorem c7_bounding_box_extents_witness :
    ((callerInitialRoom defaultConfig).category ≠ .stairs ∧
      (callerInitialRoom defaultConfig).getBoundingBox.lo.z =
        (callerInitialRoom defaultConfig).position.z +
        (callerInitialRoom defaultConfig).elevation * 100) ∧
    ((stairsGenerateRoom dummyConfig 1 zeroRng (fun _ => 0) 0).1.category = .stairs ∧
      (stairsGenerateRoom dummyConfig 1 zeroRng (fun _ => 0) 0).1.getBoundingBox.hi.z =
        (stairsGenerateRoom dummyConfig 1 zeroRng (fun _ => 0) 0).1.position.z +
        ((stairsGenerateRoom dummyConfig 1 zeroRng (fun _ => 0) 0).1.height +
         (stairsGenerateRoom dummyConfig 1 zeroRng (fun _ => 0) 0).1.elevation) * 100) :=
  ⟨⟨by with_unfolding_all decide, ((c7_bounding_box_extents _).2.1 (by with_unfolding_all decide)).1⟩,
   ⟨by with_unfolding_all decide, ((c7_bounding_box_extents _).1 (by with_unfolding_all decide)).2⟩⟩

/-- Claim C6: when the source unit is Stairs, the candidate inherits the
source elevation before positioning, and the computed position's vertical
offset from the source connection point is minus the candidate elevation
(in cm), so the candidate floor height equals the connection point's
vertical coordinate. -/
theorem c6_stairs_elevation_alignment (src cand : RoomData) (ci : ℕ) (cfg : GenConfig)
    (hstairs : src.category = .stairs)
    (hci : ci < src.connections.length)
    (hside : (src.connections.getD ci default).wallSide ≠ .none) :
    (handleStairsElevation src cand).elevation = src.elevation ∧
    (calculateConnectionPosition src ci (handleStairsElevation src cand) cfg).z =
      (src.connections.getD ci default).connectionPoint.z -
      (handleStairsElevation src cand).elevation * 100 ∧
    (calculateConnectionPosition src ci (handleStairsElevation src cand) cfg).z +
      (handleStairsElevation src cand).elevation * 100 =
      (src.connections.getD ci default).connectionPoint.z := by
  have h1 : (handleStairsElevation src cand).elevation = src.elevation := by
    simp [handleStairsElevation, hstairs]
  have key : (calculateConnectionPosition src ci (handleStairsElevation src cand) cfg).z =
      (src.connections.getD ci default).connectionPoint.z - src.elevation * 100 := by
    unfold calculateConnectionPosition
    rw [if_neg (not_le.mpr hci)]
    rcases hws : (src.connections.getD ci default).wallSide
    · exact absurd hws hside
    all_goals (simp only [hstairs, if_pos, hws, h1, ite_true, if_true]; ring)
  exact ⟨h1, by rw [key, h1], by rw [key, h1]; ring⟩

/-- Witness for C6: a concrete Stairs source ascending North with its
single bottom-end connection. -/
theorem c6_stairs_elevation_alignment_witness :
    ((createRoomConnections
        { category := .stairs, position := ⟨0, 0, 0⟩, width := 3, length := 3, height := 3,
          elevation := 200, stairDirection := .north, connections := [],
          roomIndex := 5 } defaultConfig).category = .stairs ∧
     0 < (createRoomConnections
        { category := .stairs, position := ⟨0, 0, 0⟩, width := 3, length := 3, height := 3,
          elevation := 200, stairDirection := .north, connections := [],
          roomIndex := 5 } defaultConfig).connections.length) ∧
    (handleStairsElevation (createRoomConnections
        { category := .stairs, position := ⟨0, 0, 0⟩, width := 3, length := 3, height := 3,
          elevation := 200, stairDirection := .north, connections := [],
          roomIndex := 5 } defaultConfig) (callerInitialRoom defaultConfig)).elevation =
      (createRoomConnections
        { category := .stairs, position := ⟨0, 0, 0⟩, width := 3, length := 3, height := 3,
          elevation := 200, stairDirection := .north, connections := [],
          roomIndex := 5 } defaultConfig).elevation :=
  ⟨⟨by with_unfolding_all decide, by with_unfolding_all decide⟩,
   (c6_stairs_elevation_alignment _ _ 0 defaultConfig (by with_unfolding_all decide) (by with_unfolding_all decide) (by with_unfolding_all decide)).1⟩

/-- Claim C10: GenerateRoomOfCategory ignores the source unit and the
connection index (and receives no run configuration at all — the
strategies are always invoked through the standalone GenerateRoom path on
the fixed internal DummyConfig), so candidates generated with the same
random state agree. -/
theorem c10_candidate_config_independence :
    (∀ (category : RoomCategory) (roomIndex : ℤ) (src1 src2 : Option RoomData)
       (ci1 ci2 : ℕ) (rng : Rng) (pk : ℕ → ℕ) (pIdx : ℕ),
       generateRoomOfCategory category roomIndex src1 ci1 rng pk pIdx =
       generateRoomOfCategory category roomIndex src2 ci2 rng pk pIdx) ∧
    dummyConfig.minRoomSize = 2 ∧ dummyConfig.maxRoomSize = 8 ∧
    dummyConfig.maxHallwayLength = 12 ∧ dummyConfig.minHallwayLength = 4 ∧
    dummyConfig.minHallwayWidth = 5/2 ∧ dummyConfig.maxHallwayWidth = 5 ∧
    dummyConfig.standardRoomHeight = 3 := by
  refine ⟨fun category roomIndex src1 src2 ci1 ci2 rng pk pIdx => ?_, ?_, ?_, ?_, ?_, ?_, ?_, ?_⟩
  · cases category <;> rfl
  all_goals with_unfolding_all decide

/-- clampF lands in `[lo, hi]` whenever that interval is nonempty. -/
theorem clampF_mem (x lo hi : ℚ) (h : lo ≤ hi) :
    lo ≤ clampF x lo hi ∧ clampF x lo hi ≤ hi := by
  unfold clampF
  split
  · exact ⟨le_refl lo, h⟩
  · next h1 =>
    split
    · next h2 => exact ⟨not_lt.mp h1, le_of_lt h2⟩
    · exact ⟨h, le_refl hi⟩

/-- getD after set at the same (in-range) index. -/
theorem getD_set_self {α : Type} [Inhabited α] (l : List α) (i : ℕ) (a : α)
    (h : i < l.length) : (l.set i a).getD i default = a := by
  rw [List.getD_eq_getElem _ _ (by simpa using h)]
  simp [List.getElem_set]

/-- Claim C8: an Opening connection's width is 60-80% of the smaller of
the two selected wall spans, clamped into
[StandardDoorwayWidth, 0.9 x smaller span] (when that interval is
nonempty); a Doorway gets the standard width; and ConnectRooms writes the
same type and width to both sides, marking both used. -/
theorem c8_connection_width (room1 room2 : RoomData) (cfg : GenConfig)
    (typeDraw openDraw : ℚ)
    (hd0 : 0 ≤ openDraw) (hd1 : openDraw ≤ 1)
    (hw : cfg.standardDoorwayWidth ≤
      min (getWallSize room1 (firstWallSide room1))
          (getWallSize room2 (firstWallSide room2)) * (9/10)) :
    (typeDraw < cfg.doorwayConnectionFrac →
      determineConnectionProperties room1 room2 cfg typeDraw openDraw =
        (ConnectionType.doorway, cfg.standardDoorwayWidth)) ∧
    (¬ typeDraw < cfg.doorwayConnectionFrac →
      (determineConnectionProperties room1 room2 cfg typeDraw openDraw).1 =
        ConnectionType.opening ∧
      (∃ share : ℚ, 6/10 ≤ share ∧ share ≤ 8/10 ∧
        (determineConnectionProperties room1 room2 cfg typeDraw openDraw).2 =
          clampF (min (getWallSize room1 (firstWallSide room1))
                      (getWallSize room2 (firstWallSide room2)) * share)
            cfg.standardDoorwayWidth
            (min (getWallSize room1 (firstWallSide room1))
                 (getWallSize room2 (firstWallSide room2)) * (9/10))) ∧
      cfg.standardDoorwayWidth ≤
        (determineConnectionProperties room1 room2 cfg typeDraw openDraw).2 ∧
      (determineConnectionProperties room1 room2 cfg typeDraw openDraw).2 ≤
        min (getWallSize room1 (firstWallSide room1))
            (getWallSize room2 (firstWallSide room2)) * (9/10)) ∧
    (∀ c1i c2i : ℕ, c1i < room1.connections.length → c2i < room2.connections.length →
      ((connectRooms room1 c1i room2 c2i cfg typeDraw openDraw).1.connections.getD c1i
          default).connectionType =
        ((connectRooms room1 c1i room2 c2i cfg typeDraw openDraw).2.connections.getD c2i
          default).connectionType ∧
      ((connectRooms room1 c1i room2 c2i cfg typeDraw openDraw).1.connections.getD c1i
          default).connectionWidth =
        ((connectRooms room1 c1i room2 c2i cfg typeDraw openDraw).2.connections.getD c2i
          default).connectionWidth ∧
      ((connectRooms room1 c1i room2 c2i cfg typeDraw openDraw).1.connections.getD c1i
          default).bIsUsed = true ∧
      ((connectRooms room1 c1i room2 c2i cfg typeDraw openDraw).2.connections.getD c2i
          default).bIsUsed = true) := by
  refine ⟨fun h => ?_, fun h => ?_, fun c1i c2i h1 h2 => ?_⟩
  · simp [determineConnectionProperties, h]
  · have hshare0 : (6/10 : ℚ) ≤ 6/10 + (8/10 - 6/10) * openDraw := by nlinarith
    have hshare1 : (6/10 : ℚ) + (8/10 - 6/10) * openDraw ≤ 8/10 := by nlinarith
    have hmem := clampF_mem
      (min (getWallSize room1 (firstWallSide room1))
           (getWallSize room2 (firstWallSide room2)) * (6/10 + (8/10 - 6/10) * openDraw))
      cfg.standardDoorwayWidth
      (min (getWallSize room1 (firstWallSide room1))
           (getWallSize room2 (firstWallSide room2)) * (9/10)) hw
    refine ⟨?_, ⟨6/10 + (8/10 - 6/10) * openDraw, hshare0, hshare1, ?_⟩, ?_, ?_⟩ <;>
      simp only [determineConnectionProperties, if_neg h] <;>
      first
        | rfl
        | exact hmem.1
        | exact hmem.2
  · have hguard : ¬ (c1i ≥ room1.connections.length ∨ c2i ≥ room2.connections.length) := by
      push_neg
      exact ⟨h1, h2⟩
    simp only [connectRooms, if_neg hguard]
    rw [getD_set_self _ _ _ h1, getD_set_self _ _ _ h2]
    exact ⟨rfl, rfl, rfl, rfl⟩

/-- Witness for C8: two 5x5 rooms from the default configuration, an
Opening draw of 1 with opening share draw 1/2. -/
theorem c8_connection_width_witness :
    ((0 : ℚ) ≤ 1/2 ∧ (1/2 : ℚ) ≤ 1 ∧
     defaultConfig.standardDoorwayWidth ≤
       min (getWallSize (callerInitialRoom defaultConfig)
              (firstWallSide (callerInitialRoom defaultConfig)))
           (getWallSize (callerInitialRoom defaultConfig)
              (firstWallSide (callerInitialRoom defaultConfig))) * (9/10)) ∧
    (¬ (1 : ℚ) < defaultConfig.doorwayConnectionFrac ∧
     (determineConnectionProperties (callerInitialRoom defaultConfig)
        (callerInitialRoom defaultConfig) defaultConfig 1 (1/2)).1 =
       ConnectionType.opening) := by
  refine ⟨⟨by norm_num, by norm_num, by with_unfolding_all decide⟩,
          ⟨by with_unfolding_all decide, ?_⟩⟩
  exact ((c8_connection_width (callerInitialRoom defaultConfig)
    (callerInitialRoom defaultConfig) defaultConfig 1 (1/2)
    (by norm_num) (by norm_num) (by with_unfolding_all decide)).2.1
    (by with_unfolding_all decide)).1

/-- Claim C1 counterexample: in a completed all-rooms run, the first
committed unit is placed directly against its source (the initial room);
both elevations are 0 (within the 2 m vertical-separation threshold),
yet the two buffer-expanded bounding boxes intersect — the collision
check excludes the source unit, and the placement gap (wall thickness +
1 cm) is smaller than the two 0.2 m wall margins included in the boxes. -/
theorem c1_counterexample :
    (executeProceduralGeneration (callerInitialRoom cfgRoomOnly) cfgRoomOnly
       zeroOracle id).crashed = false ∧
    (executeProceduralGeneration (callerInitialRoom cfgRoomOnly) cfgRoomOnly
       zeroOracle id).stopped = false ∧
    (executeProceduralGeneration (callerInitialRoom cfgRoomOnly) cfgRoomOnly
       zeroOracle id).rooms.length = 2 ∧
    areRoomsOnDifferentLevels
      ((executeProceduralGeneration (callerInitialRoom cfgRoomOnly) cfgRoomOnly
         zeroOracle id).rooms.getD 0 default)
      ((executeProceduralGeneration (callerInitialRoom cfgRoomOnly) cfgRoomOnly
         zeroOracle id).rooms.getD 1 default) 200 = false ∧
    boxIntersect
      (getExpandedBounds ((executeProceduralGeneration (callerInitialRoom cfgRoomOnly)
         cfgRoomOnly zeroOracle id).rooms.getD 1 default) cfgRoomOnly)
      (getExpandedBounds ((executeProceduralGeneration (callerInitialRoom cfgRoomOnly)
         cfgRoomOnly zeroOracle id).rooms.getD 0 default) cfgRoomOnly) = true := by
  with_unfolding_all decide

/-- Claim C5, evaluated at the failing input: a default (all-stairs)
run where the initial room's South connection (index 1) receives a
stairs unit ascending North.  Both connections are marked used with
mutual indices, but both lie on South walls: the partner connection is
not on the geometrically opposite wall side, because
GetOppositeWallIndex maps connection-array indices, which do not
correspond to walls on a one-connection stairs unit. -/
theorem c5_code_divergence :
    (executeProceduralGeneration (callerInitialRoom defaultConfig) defaultConfig
       stairsOracle id).crashed = false ∧
    (executeProceduralGeneration (callerInitialRoom defaultConfig) defaultConfig
       stairsOracle id).rooms.length = 2 ∧
    ((executeProceduralGeneration (callerInitialRoom defaultConfig) defaultConfig
       stairsOracle id).rooms.getD 1 default).category = RoomCategory.stairs ∧
    (((executeProceduralGeneration (callerInitialRoom defaultConfig) defaultConfig
       stairsOracle id).rooms.getD 0 default).connections.getD 1 default).bIsUsed = true ∧
    (((executeProceduralGeneration (callerInitialRoom defaultConfig) defaultConfig
       stairsOracle id).rooms.getD 0 default).connections.getD 1 default).connectedRoomIndex = 1 ∧
    (((executeProceduralGeneration (callerInitialRoom defaultConfig) defaultConfig
       stairsOracle id).rooms.getD 1 default).connections.getD 0 default).bIsUsed = true ∧
    (((executeProceduralGeneration (callerInitialRoom defaultConfig) defaultConfig
       stairsOracle id).rooms.getD 1 default).connections.getD 0 default).connectedRoomIndex = 0 ∧
    (((executeProceduralGeneration (callerInitialRoom defaultConfig) defaultConfig
       stairsOracle id).rooms.getD 0 default).connections.getD 1 default).wallSide =
      WallSide.south ∧
    (((executeProceduralGeneration (callerInitialRoom defaultConfig) defaultConfig
       stairsOracle id).rooms.getD 1 default).connections.getD 0 default).wallSide =
      WallSide.south ∧
    oppositeSide WallSide.south ≠ WallSide.south := by
  with_unfolding_all decide

/-- Claim C9 counterexample: a builder that reports failure for a
candidate passing collision testing does not cause the candidate to be
discarded — TryPlaceRoom still succeeds, and the full run still commits
the candidate to the permanent list. -/
theorem c9_counterexample :
    (tryPlaceRoomWithBuilder (callerInitialRoom cfgRoomOnly) 0
       (standardGenerateRoom dummyConfig 1 zeroRng) [callerInitialRoom cfgRoomOnly]
       cfgRoomOnly fun r => (r, false)).1 = true ∧
    (executeProceduralGeneration (callerInitialRoom cfgRoomOnly) cfgRoomOnly zeroOracle
       fun r => ((fun rr : RoomData => (rr, false)) r).1).rooms.length = 2 := by
  with_unfolding_all decide

/-- Claim C9 (amended): the builder callback's return type is void, so
its success report never reaches the orchestrator: TryPlaceRoom succeeds
exactly when the collision check passes, independently of the builder's
report, and a whole generation run is unchanged by the report — in
particular a builder failure never aborts generation. -/
theorem c9_builder_report_ignored (src : RoomData) (ci : ℕ) (nr : RoomData)
    (ex : List RoomData) (cfg : GenConfig) (o : Oracle) (initialRoom : RoomData)
    (b1 b2 : RoomData → RoomData × Bool)
    (hsame : ∀ r, (b1 r).1 = (b2 r).1) :
    (tryPlaceRoomWithBuilder src ci nr ex cfg b1).1 =
      !(internalCheckCollision (positionedRoom src ci nr cfg) ex src.roomIndex cfg) ∧
    executeProceduralGeneration initialRoom cfg o (fun r => (b1 r).1) =
      executeProceduralGeneration initialRoom cfg o (fun r => (b2 r).1) := by
  constructor
  · cases h : internalCheckCollision (positionedRoom src ci nr cfg) ex src.roomIndex cfg <;>
    simp [tryPlaceRoomWithBuilder, tryPlaceRoom, h]
  · have hfun : (fun r => (b1 r).1) = fun r => (b2 r).1 := funext hsame
    rw [hfun]

/-- Witness for the amended C9 at a failing and a succeeding builder that
materialize rooms identically. -/
theorem c9_builder_report_ignored_witness :
    (∀ r : RoomData, ((fun rr : RoomData => (rr, false)) r).1 =
      ((fun rr : RoomData => (rr, true)) r).1) ∧
    executeProceduralGeneration (callerInitialRoom cfgRoomOnly) cfgRoomOnly zeroOracle
        (fun r => ((fun rr : RoomData => (rr, false)) r).1) =
      executeProceduralGeneration (callerInitialRoom cfgRoomOnly) cfgRoomOnly zeroOracle
        (fun r => ((fun rr : RoomData => (rr, true)) r).1) :=
  ⟨fun _ => rfl,
   (c9_builder_report_ignored (callerInitialRoom cfgRoomOnly) 0
      (standardGenerateRoom dummyConfig 1 zeroRng) [callerInitialRoom cfgRoomOnly]
      cfgRoomOnly zeroOracle (callerInitialRoom cfgRoomOnly)
      (fun rr => (rr, false)) (fun rr => (rr, true)) (fun _ => rfl)).2⟩

/-- CheckSafetyLimits only touches timing, cursors and the stopped flag. -/
theorem checkSafetyLimits_frame (cfg : GenConfig) (o : Oracle) (st : GenState) :
    (checkSafetyLimits cfg o st).2.rooms = st.rooms ∧
    (checkSafetyLimits cfg o st).2.srcLog = st.srcLog ∧
    (checkSafetyLimits cfg o st).2.available = st.available ∧
    (checkSafetyLimits cfg o st).2.crashed = st.crashed ∧
    (checkSafetyLimits cfg o st).2.mainCtr = st.mainCtr ∧
    (checkSafetyLimits cfg o st).2.connCtr = st.connCtr ∧
    (checkSafetyLimits cfg o st).2.placCtr = st.placCtr := by
  simp only [checkSafetyLimits]
  repeat' split
  all_goals exact ⟨rfl, rfl, rfl, rfl, rfl, rfl, rfl⟩

/-- A tripped check sets the stopped flag; a passed check leaves it. -/
theorem checkSafetyLimits_stopped (cfg : GenConfig) (o : Oracle) (st : GenState) :
    ((checkSafetyLimits cfg o st).1 = true →
      (checkSafetyLimits cfg o st).2.stopped = true) ∧
    ((checkSafetyLimits cfg o st).1 = false →
      (checkSafetyLimits cfg o st).2.stopped = st.stopped) := by
  simp only [checkSafetyLimits]
  repeat' split
  all_goals simp

/-- A passed check bounds all three counters strictly by the limit. -/
theorem checkSafetyLimits_pass_bounds (cfg : GenConfig) (o : Oracle) (st : GenState)
    (h : (checkSafetyLimits cfg o st).1 = false) :
    (st.mainCtr : ℤ) < cfg.maxSafetyIterations ∧
    (st.connCtr : ℤ) < cfg.maxSafetyIterations ∧
    (st.placCtr : ℤ) < cfg.maxSafetyIterations := by
  simp only [checkSafetyLimits] at h
  repeat' split at h
  all_goals simp_all

/-- Transport a RunInv along equal room lists and source logs. -/
theorem RunInv_congr {cfg : GenConfig} {st st' : GenState} (h : RunInv cfg st)
    (hr : st'.rooms = st.rooms) (hl : st'.srcLog = st.srcLog) : RunInv cfg st' :=
  ⟨by rw [hl, hr]; exact h.logLen,
   by rw [hr]; exact h.idx,
   by rw [hr]; exact h.valid,
   by rw [hr]; exact h.shape,
   by rw [hl]; exact h.srcLt,
   by rw [hr, hl]; exact h.noStairPair,
   by rw [hr, hl]; exact h.sep⟩

/-- Setting a connection slot to a value with the same wall side keeps the
wall-side map. -/
theorem map_wallSide_set :
    ∀ (l : List RoomConnection) (i : ℕ) (c : RoomConnection),
      c.wallSide = (l.getD i default).wallSide →
      (l.set i c).map RoomConnection.wallSide = l.map RoomConnection.wallSide
  | [], _, _, _ => rfl
  | a :: l, 0, c, h => by
    simp only [List.getD_cons_zero] at h
    simp [h]
  | a :: l, i + 1, c, h => by
    simp only [List.getD_cons_succ] at h
    simp [map_wallSide_set l i c h]

/-- The four candidate stair directions are never `None`. -/
theorem stairDirList_getD_ne_none (n : ℕ) :
    ([WallSide.north, WallSide.south, WallSide.east,
      WallSide.west][n]?.getD WallSide.north) ≠ WallSide.none := by
  rcases n with _ | _ | _ | _ | n <;> simp

/-- Fields of a candidate from GenerateRoomOfCategory. -/
theorem generateRoomOfCategory_fields (category : RoomCategory) (roomIndex : ℤ)
    (s : Option RoomData) (c : ℕ) (rng : Rng) (pk : ℕ → ℕ) (p : ℕ) :
    (generateRoomOfCategory category roomIndex s c rng pk p).1.roomIndex = roomIndex ∧
    (generateRoomOfCategory category roomIndex s c rng pk p).1.category = category ∧
    (category = .stairs →
      (generateRoomOfCategory category roomIndex s c rng pk p).1.stairDirection ≠ .none) := by
  cases category <;>
    simp [generateRoomOfCategory, standardGenerateRoom, hallwayGenerateRoom,
      stairsGenerateRoom, createStandardRoomConnections, createHallwayConnections,
      createStairsConnections, initializeBaseRoomData, stairDirList_getD_ne_none]

/-- The positioned candidate keeps category, index and stair direction. -/
theorem positionedRoom_fields (src : RoomData) (ci : ℕ) (nr : RoomData) (cfg : GenConfig) :
    (positionedRoom src ci nr cfg).category = nr.category ∧
    (positionedRoom src ci nr cfg).roomIndex = nr.roomIndex ∧
    (positionedRoom src ci nr cfg).stairDirection = nr.stairDirection := by
  unfold positionedRoom handleStairsElevation
  split <;> simp

/-- CreateRoomConnections does not move the room. -/
theorem createRoomConnections_frame (r : RoomData) (cfg : GenConfig) :
    (createRoomConnections r cfg).getBoundingBox = r.getBoundingBox ∧
    validateRoomBounds (createRoomConnections r cfg) cfg = validateRoomBounds r cfg ∧
    (createRoomConnections r cfg).category = r.category ∧
    (createRoomConnections r cfg).roomIndex = r.roomIndex :=
  ⟨rfl, rfl, rfl, rfl⟩

/-- CreateRoomConnections produces the canonical wall-side layout. -/
theorem createRoomConnections_shape (r : RoomData) (cfg : GenConfig)
    (hdir : r.category = .stairs → r.stairDirection ≠ .none) :
    connShapeOK (createRoomConnections r cfg) = true := by
  unfold connShapeOK createRoomConnections
  by_cases h : r.category = .stairs <;> simp_all

/-- A passed collision check validates the candidate and separates it
from every existing room other than the excluded index (among the
bounds-valid ones). -/
theorem internalCheckCollision_false_spec (t : RoomData) (ex : List RoomData)
    (k : ℤ) (cfg : GenConfig)
    (h : internalCheckCollision t ex k cfg = false) :
    validateRoomBounds t cfg = true ∧
    ∀ i, i < ex.length → (i : ℤ) ≠ k →
      validateRoomBounds (ex.getD i default) cfg = true →
      boxIntersect (getExpandedBounds t cfg) ((ex.getD i default).getBoundingBox) = false := by
  unfold internalCheckCollision at h
  by_cases hv : validateRoomBounds t cfg = true
  · refine ⟨hv, fun i hi hk hvi => ?_⟩
    rw [if_neg (by simp [hv])] at h
    have hgetD : ex.getD i default = ex[i] := List.getD_eq_getElem ex default hi
    have hmem : (i, ex[i]) ∈ ex.enum := by
      have hlen : i < ex.enum.length := by simpa using hi
      have := List.getElem_enum ex i hlen
      exact this ▸ List.getElem_mem hlen
    have hfalse := List.any_eq_false.mp h _ hmem
    rw [hgetD] at hvi ⊢
    simp only [Bool.and_eq_true, decide_eq_true_eq, not_and] at hfalse
    have := hfalse ⟨hk, hvi⟩
    simpa using this
  · rw [if_pos (by simpa using hv)] at h
    exact absurd h (by simp)

/-- ConnectRooms changes only connection bookkeeping: geometry, bounding
box, validity, category, index, stair direction and the wall-side layout
of both rooms are unchanged. -/
theorem connectRooms_frame (r1 : RoomData) (c1 : ℕ) (r2 : RoomData) (c2 : ℕ)
    (cfg : GenConfig) (t d : ℚ) :
    ((connectRooms r1 c1 r2 c2 cfg t d).1.getBoundingBox = r1.getBoundingBox ∧
     validateRoomBounds (connectRooms r1 c1 r2 c2 cfg t d).1 cfg = validateRoomBounds r1 cfg ∧
     (connectRooms r1 c1 r2 c2 cfg t d).1.category = r1.category ∧
     (connectRooms r1 c1 r2 c2 cfg t d).1.roomIndex = r1.roomIndex ∧
     (connectRooms r1 c1 r2 c2 cfg t d).1.stairDirection = r1.stairDirection ∧
     (connectRooms r1 c1 r2 c2 cfg t d).1.connections.map RoomConnection.wallSide =
       r1.connections.map RoomConnection.wallSide) ∧
    ((connectRooms r1 c1 r2 c2 cfg t d).2.getBoundingBox = r2.getBoundingBox ∧
     validateRoomBounds (connectRooms r1 c1 r2 c2 cfg t d).2 cfg = validateRoomBounds r2 cfg ∧
     (connectRooms r1 c1 r2 c2 cfg t d).2.category = r2.category ∧
     (connectRooms r1 c1 r2 c2 cfg t d).2.roomIndex = r2.roomIndex ∧
     (connectRooms r1 c1 r2 c2 cfg t d).2.stairDirection = r2.stairDirection ∧
     (connectRooms r1 c1 r2 c2 cfg t d).2.connections.map RoomConnection.wallSide =
       r2.connections.map RoomConnection.wallSide) := by
  simp only [connectRooms]
  split
  · exact ⟨⟨rfl, rfl, rfl, rfl, rfl, rfl⟩, ⟨rfl, rfl, rfl, rfl, rfl, rfl⟩⟩
  · exact ⟨⟨rfl, rfl, rfl, rfl, rfl, map_wallSide_set _ _ _ rfl⟩,
           ⟨rfl, rfl, rfl, rfl, rfl, map_wallSide_set _ _ _ rfl⟩⟩

/-- connShapeOK only depends on category, stair direction and the
wall-side layout. -/
theorem connShapeOK_congr {a b : RoomData}
    (hc : a.category = b.category) (hd : a.stairDirection = b.stairDirection)
    (hm : a.connections.map RoomConnection.wallSide =
          b.connections.map RoomConnection.wallSide) :
    connShapeOK a = connShapeOK b := by
  unfold connShapeOK
  rw [hc, hd, hm]

/-- A successful TryPlaceRoom (with a non-mutating creator) returns the
positioned candidate with its fresh connections, and certifies that the
collision check against the existing rooms (excluding the source index)
passed. -/
theorem tryPlaceRoom_true_spec (src : RoomData) (ci : ℕ) (nr : RoomData)
    (ex : List RoomData) (cfg : GenConfig) (creator : RoomData → RoomData)
    (hcr : ∀ r, creator r = r)
    (h : (tryPlaceRoom src ci nr ex cfg creator).1 = true) :
    (tryPlaceRoom src ci nr ex cfg creator).2 =
      createRoomConnections (positionedRoom src ci nr cfg) cfg ∧
    internalCheckCollision (positionedRoom src ci nr cfg) ex src.roomIndex cfg = false := by
  unfold tryPlaceRoom at h ⊢
  by_cases hc : internalCheckCollision (positionedRoom src ci nr cfg) ex src.roomIndex cfg = true
  · simp [hc] at h
  · simp only [Bool.not_eq_true] at hc
    simp [hc, hcr]

/-- A category drawn as Stairs certifies the source was not Stairs. -/
theorem determineRoomCategory_stairs_source (srcCat : RoomCategory) (cfg : GenConfig)
    (rv : ℚ) (h : determineRoomCategory srcCat cfg rv = .stairs) : srcCat ≠ .stairs := by
  intro hs
  subst hs
  simp only [determineRoomCategory, if_true] at h
  split at h <;> simp at h

/-- getD after set, both indices in range. -/
theorem getD_set (l : List RoomData) (i k : ℕ) (x : RoomData) (hk : k < l.length) :
    (l.set i x).getD k default = if i = k then x else l.getD k default := by
  rw [List.getD_eq_getElem _ _ (by simpa using hk), List.getElem_set]
  split
  · rfl
  · exact (List.getD_eq_getElem _ _ hk).symm

/-- The success branch of a placement at TryGenerateConnectedRoom's call
pattern establishes CommitOK for the committed room. -/
theorem commitOK_of_success (cfg : GenConfig) (rooms : List RoomData)
    (hidx : ∀ k, k < rooms.length → (rooms.getD k default).roomIndex = (k : ℤ))
    (hval : ∀ k, k < rooms.length → validateRoomBounds (rooms.getD k default) cfg = true)
    (srcPos roomIndex connIdx : ℕ) (hsrc : srcPos < rooms.length)
    (srcOpt : Option RoomData) (rv : ℚ) (rng : Rng) (pk : ℕ → ℕ) (p : ℕ)
    (creator : RoomData → RoomData) (hcr : ∀ r, creator r = r)
    (hplace : (tryPlaceRoom (rooms.getD srcPos default) connIdx
        (generateRoomOfCategory
          (determineRoomCategory (rooms.getD srcPos default).category cfg rv)
          (roomIndex : ℤ) srcOpt connIdx rng pk p).1
        rooms cfg creator).1 = true) :
    CommitOK cfg rooms srcPos roomIndex
      (tryPlaceRoom (rooms.getD srcPos default) connIdx
        (generateRoomOfCategory
          (determineRoomCategory (rooms.getD srcPos default).category cfg rv)
          (roomIndex : ℤ) srcOpt connIdx rng pk p).1
        rooms cfg creator).2 := by
  obtain ⟨heq, hcol⟩ := tryPlaceRoom_true_spec _ _ _ _ _ _ hcr hplace
  obtain ⟨hvalidPos, hsep⟩ := internalCheckCollision_false_spec _ _ _ _ hcol
  obtain ⟨hgidx, hgcat, hgdir⟩ := generateRoomOfCategory_fields
    (determineRoomCategory (rooms.getD srcPos default).category cfg rv)
    (roomIndex : ℤ) srcOpt connIdx rng pk p
  obtain ⟨hpcat, hpidx, hpdir⟩ := positionedRoom_fields (rooms.getD srcPos default) connIdx
    (generateRoomOfCategory
      (determineRoomCategory (rooms.getD srcPos default).category cfg rv)
      (roomIndex : ℤ) srcOpt connIdx rng pk p).1 cfg
  rw [heq]
  obtain ⟨hcbox, hcval, hccat, hcidx⟩ := createRoomConnections_frame
    (positionedRoom (rooms.getD srcPos default) connIdx
      (generateRoomOfCategory
        (determineRoomCategory (rooms.getD srcPos default).category cfg rv)
        (roomIndex : ℤ) srcOpt connIdx rng pk p).1 cfg) cfg
  refine ⟨?_, ?_, ?_, ?_, ?_⟩
  · rw [hcidx, hpidx, hgidx]
  · rw [hcval]
    exact hvalidPos
  · exact createRoomConnections_shape _ _ (fun hstair => by
      rw [hpdir]
      exact hgdir (by rw [← hgcat, ← hpcat]; exact hstair))
  · intro hstair
    have hcat : determineRoomCategory (rooms.getD srcPos default).category cfg rv =
        .stairs := by
      rw [← hgcat, ← hpcat, ← hccat]
      exact hstair
    exact determineRoomCategory_stairs_source _ _ _ hcat
  · intro i hi hne
    have hzx : (i : ℤ) ≠ (rooms.getD srcPos default).roomIndex := by
      rw [hidx srcPos hsrc]
      exact_mod_cast hne
    have hbox : getExpandedBounds
        (createRoomConnections (positionedRoom (rooms.getD srcPos default) connIdx
          (generateRoomOfCategory
            (determineRoomCategory (rooms.getD srcPos default).category cfg rv)
            (roomIndex : ℤ) srcOpt connIdx rng pk p).1 cfg) cfg) cfg =
        getExpandedBounds (positionedRoom (rooms.getD srcPos default) connIdx
          (generateRoomOfCategory
            (determineRoomCategory (rooms.getD srcPos default).category cfg rv)
            (roomIndex : ℤ) srcOpt connIdx rng pk p).1 cfg) cfg := by
      unfold getExpandedBounds
      rw [hcbox]
    rw [hbox]
    exact hsep i hi hzx (hval i hi)

/-- Appending a room committed at the end of the list (with CommitOK at
the next index) preserves the run invariant. -/
theorem RunInv_append (cfg : GenConfig) {st st' : GenState} (placed : RoomData)
    (srcPos : ℕ) (hInv : RunInv cfg st)
    (hr : st'.rooms = st.rooms ++ [placed])
    (hl : st'.srcLog = st.srcLog ++ [srcPos])
    (hsrc : srcPos < st.rooms.length)
    (hcommit : CommitOK cfg st.rooms srcPos st.rooms.length placed) :
    RunInv cfg st' := by
  obtain ⟨hcidx, hcval, hcshape, hcstair, hcsep⟩ := hcommit
  have hlen : st'.rooms.length = st.rooms.length + 1 := by simp [hr]
  have hloglen : st'.srcLog.length = st.srcLog.length + 1 := by simp [hl]
  have hgetr : ∀ k, k < st.rooms.length →
      st'.rooms.getD k default = st.rooms.getD k default := by
    intro k hk
    rw [hr]
    exact List.getD_append _ _ _ _ hk
  have hgetlast : st'.rooms.getD st.rooms.length default = placed := by
    rw [hr, List.getD_append_right _ _ _ _ (le_refl _)]
    simp
  have hgetl : ∀ j, j < st.srcLog.length →
      st'.srcLog.getD j 0 = st.srcLog.getD j 0 := by
    intro j hj
    rw [hl]
    exact List.getD_append _ _ _ _ hj
  have hgetllast : st'.srcLog.getD st.srcLog.length 0 = srcPos := by
    rw [hl, List.getD_append_right _ _ _ _ (le_refl _)]
    simp
  refine ⟨?_, ?_, ?_, ?_, ?_, ?_, ?_⟩
  · rw [hlen, hloglen]
    rw [hInv.logLen]
  · intro k hk
    rw [hlen] at hk
    rcases Nat.lt_succ_iff_lt_or_eq.mp hk with h | h
    · rw [hgetr k h]
      exact hInv.idx k h
    · subst h
      rw [hgetlast]
      exact hcidx
  · intro k hk
    rw [hlen] at hk
    rcases Nat.lt_succ_iff_lt_or_eq.mp hk with h | h
    · rw [hgetr k h]
      exact hInv.valid k h
    · subst h
      rw [hgetlast]
      exact hcval
  · intro k hk
    rw [hlen] at hk
    rcases Nat.lt_succ_iff_lt_or_eq.mp hk with h | h
    · rw [hgetr k h]
      exact hInv.shape k h
    · subst h
      rw [hgetlast]
      exact hcshape
  · intro j hj
    rw [hloglen] at hj
    rcases Nat.lt_succ_iff_lt_or_eq.mp hj with h | h
    · rw [hgetl j h]
      exact hInv.srcLt j h
    · subst h
      rw [hgetllast]
      have := hInv.logLen
      omega
  · intro j hj hstair
    rw [hloglen] at hj
    have hll := hInv.logLen
    rcases Nat.lt_succ_iff_lt_or_eq.mp hj with h | h
    · have hj1 : j + 1 < st.rooms.length := by omega
      have hsl : st.srcLog.getD j 0 < st.rooms.length := by
        have := hInv.srcLt j h
        omega
      rw [hgetr (j + 1) hj1] at hstair
      rw [hgetl j h, hgetr _ hsl]
      exact hInv.noStairPair j h hstair
    · subst h
      have hj1 : st.srcLog.length + 1 = st.rooms.length := hll
      rw [hj1, hgetlast] at hstair
      rw [hgetllast, hgetr _ hsrc]
      exact hcstair hstair
  · intro i j hij hj hlog
    rw [hlen] at hj
    have hll := hInv.logLen
    rcases Nat.lt_succ_iff_lt_or_eq.mp hj with h | h
    · have hi : i < st.rooms.length := lt_trans hij h
      have hj1 : j - 1 < st.srcLog.length := by omega
      rw [hgetl _ hj1] at hlog
      rw [hgetr _ h, hgetr _ hi]
      exact hInv.sep i j hij h hlog
    · subst h
      have hi : i < st.rooms.length := hij
      have hj1 : st.rooms.length - 1 = st.srcLog.length := by omega
      rw [hj1, hgetllast] at hlog
      rw [hgetlast, hgetr _ hi]
      exact hcsep i hi (fun he => hlog he.symm)

/-- Updating two committed rooms with the results of ConnectRooms
preserves the run invariant (connection bookkeeping only). -/
theorem RunInv_connect (cfg : GenConfig) {st st' : GenState} (hInv : RunInv cfg st)
    (a b c1 c2 : ℕ) (t d : ℚ) (hl : st'.srcLog = st.srcLog)
    (hr : st'.rooms = (st.rooms.set a
        (connectRooms (st.rooms.getD a default) c1 (st.rooms.getD b default) c2 cfg t d).1).set b
        (connectRooms (st.rooms.getD a default) c1 (st.rooms.getD b default) c2 cfg t d).2) :
    RunInv cfg st' := by
  have hlen : st'.rooms.length = st.rooms.length := by simp [hr]
  have hfr := connectRooms_frame (st.rooms.getD a default) c1 (st.rooms.getD b default) c2 cfg t d
  have hfeat : ∀ k, k < st.rooms.length →
      ((st'.rooms.getD k default).getBoundingBox =
        (st.rooms.getD k default).getBoundingBox ∧
       validateRoomBounds (st'.rooms.getD k default) cfg =
        validateRoomBounds (st.rooms.getD k default) cfg ∧
       (st'.rooms.getD k default).category = (st.rooms.getD k default).category ∧
       (st'.rooms.getD k default).roomIndex = (st.rooms.getD k default).roomIndex ∧
       connShapeOK (st'.rooms.getD k default) = connShapeOK (st.rooms.getD k default)) := by
    intro k hk
    rw [hr, getD_set _ _ _ _ (by simpa using hk)]
    split
    · next hbk =>
      subst hbk
      exact ⟨hfr.2.1, hfr.2.2.1, hfr.2.2.2.1, hfr.2.2.2.2.1,
        connShapeOK_congr hfr.2.2.2.1 hfr.2.2.2.2.2.1 hfr.2.2.2.2.2.2⟩
    · rw [getD_set _ _ _ _ hk]
      split
      · next hak =>
        subst hak
        exact ⟨hfr.1.1, hfr.1.2.1, hfr.1.2.2.1, hfr.1.2.2.2.1,
          connShapeOK_congr hfr.1.2.2.1 hfr.1.2.2.2.2.1 hfr.1.2.2.2.2.2⟩
      · exact ⟨rfl, rfl, rfl, rfl, rfl⟩
  refine ⟨?_, ?_, ?_, ?_, ?_, ?_, ?_⟩
  · rw [hlen, hl]
    exact hInv.logLen
  · intro k hk
    rw [hlen] at hk
    rw [(hfeat k hk).2.2.2.1]
    exact hInv.idx k hk
  · intro k hk
    rw [hlen] at hk
    rw [(hfeat k hk).2.1]
    exact hInv.valid k hk
  · intro k hk
    rw [hlen] at hk
    rw [(hfeat k hk).2.2.2.2]
    exact hInv.shape k hk
  · intro j hj
    rw [hl] at hj ⊢
    exact hInv.srcLt j hj
  · intro j hj hstair
    rw [hl] at hj ⊢
    have hll := hInv.logLen
    have hj1 : j + 1 < st.rooms.length := by omega
    have hsl : st.srcLog.getD j 0 < st.rooms.length := by
      have := hInv.srcLt j hj
      omega
    rw [(hfeat _ hj1).2.2.1] at hstair
    rw [(hfeat _ hsl).2.2.1]
    exact hInv.noStairPair j hj hstair
  · intro i j hij hj hlog
    rw [hlen] at hj
    rw [hl] at hlog
    have hi : i < st.rooms.length := lt_trans hij hj
    have hbox : getExpandedBounds (st'.rooms.getD j default) cfg =
        getExpandedBounds (st.rooms.getD j default) cfg := by
      unfold getExpandedBounds
      rw [(hfeat j hj).1]
    rw [hbox, (hfeat i hi).1]
    exact hInv.sep i j hij hj hlog

/-- TryGenerateConnectedRoom leaves the available list and crash flag
alone; on failure the room list and log are untouched, on success
exactly one room satisfying CommitOK is appended. -/
theorem tryGenerateConnectedRoom_spec (cfg : GenConfig) (o : Oracle)
    (creator : RoomData → RoomData) (hcr : ∀ r, creator r = r)
    (roomIndex srcPos connIdx : ℕ) :
    ∀ (n : ℕ) (st : GenState), RunInv cfg st → srcPos < st.rooms.length →
      ((tryGenerateConnectedRoom cfg o creator roomIndex srcPos connIdx n st).2.available =
        st.available ∧
       (tryGenerateConnectedRoom cfg o creator roomIndex srcPos connIdx n st).2.crashed =
        st.crashed) ∧
      ((tryGenerateConnectedRoom cfg o creator roomIndex srcPos connIdx n st).1 = false →
       (tryGenerateConnectedRoom cfg o creator roomIndex srcPos connIdx n st).2.rooms =
          st.rooms ∧
       (tryGenerateConnectedRoom cfg o creator roomIndex srcPos connIdx n st).2.srcLog =
          st.srcLog) ∧
      ((tryGenerateConnectedRoom cfg o creator roomIndex srcPos connIdx n st).1 = true →
       ∃ placed,
         (tryGenerateConnectedRoom cfg o creator roomIndex srcPos connIdx n st).2.rooms =
           st.rooms ++ [placed] ∧
         (tryGenerateConnectedRoom cfg o creator roomIndex srcPos connIdx n st).2.srcLog =
           st.srcLog ++ [srcPos] ∧
         CommitOK cfg st.rooms srcPos roomIndex placed) := by
  intro n
  induction n with
  | zero =>
    intro st _ _
    exact ⟨⟨rfl, rfl⟩, fun _ => ⟨rfl, rfl⟩,
      fun h => by simp [tryGenerateConnectedRoom] at h⟩
  | succ n ih =>
    intro st hInv hsrc
    have hframe := checkSafetyLimits_frame cfg o { st with placCtr := st.placCtr + 1 }
    have hrooms : (checkSafetyLimits cfg o
        { st with placCtr := st.placCtr + 1 }).2.rooms = st.rooms := hframe.1
    have hlog : (checkSafetyLimits cfg o
        { st with placCtr := st.placCtr + 1 }).2.srcLog = st.srcLog := hframe.2.1
    have havail : (checkSafetyLimits cfg o
        { st with placCtr := st.placCtr + 1 }).2.available = st.available := hframe.2.2.1
    have hcrash : (checkSafetyLimits cfg o
        { st with placCtr := st.placCtr + 1 }).2.crashed = st.crashed := hframe.2.2.2.1
    simp only [tryGenerateConnectedRoom]
    by_cases htrip : (checkSafetyLimits cfg o { st with placCtr := st.placCtr + 1 }).1 = true
    · rw [if_pos htrip]
      exact ⟨⟨havail, hcrash⟩, fun _ => ⟨hrooms, hlog⟩, fun h => by simp at h⟩
    · rw [if_neg htrip]
      rw [hrooms, hlog, havail, hcrash]
      by_cases hp : (tryPlaceRoom (st.rooms.getD srcPos default) connIdx
          (generateRoomOfCategory
            (determineRoomCategory (st.rooms.getD srcPos default).category cfg
              (o.catDraw (checkSafetyLimits cfg o
                { st with placCtr := st.placCtr + 1 }).2.cIdx))
            (roomIndex : ℤ)
            (if determineRoomCategory (st.rooms.getD srcPos default).category cfg
              (o.catDraw (checkSafetyLimits cfg o
                { st with placCtr := st.placCtr + 1 }).2.cIdx) = .stairs
             then some (st.rooms.getD srcPos default) else Option.none)
            connIdx
            (o.rng (checkSafetyLimits cfg o
              { st with placCtr := st.placCtr + 1 }).2.rIdx)
            o.pick
            (checkSafetyLimits cfg o
              { st with placCtr := st.placCtr + 1 }).2.pIdx).1
          st.rooms cfg creator).1 = true
      · rw [if_pos hp]
        refine ⟨⟨rfl, rfl⟩, fun h => by simp at h, fun _ => ?_⟩
        refine ⟨_, rfl, rfl, ?_⟩
        exact commitOK_of_success cfg st.rooms hInv.idx hInv.valid srcPos roomIndex connIdx
          hsrc _ _ _ _ _ creator hcr hp
      · rw [if_neg hp]
        have hInv' : RunInv cfg (tryGenerateConnectedRoom cfg o creator roomIndex srcPos
            connIdx n st).2 = RunInv cfg st → True := fun _ => trivial
        exact ih _ (RunInv_congr hInv rfl rfl) hsrc

/-- The core connection commit preserves the run invariant and the
room-list length. -/
theorem connectionCommitCore_inv (cfg : GenConfig) (o : Oracle)
    (roomIndex srcPos connIdx : ℕ) (st1 : GenState) (hInv : RunInv cfg st1) :
    RunInv cfg (connectionCommitCore cfg o roomIndex srcPos connIdx st1) ∧
    (connectionCommitCore cfg o roomIndex srcPos connIdx st1).rooms.length =
      st1.rooms.length := by
  simp only [connectionCommitCore]
  by_cases hlt : roomIndex < st1.rooms.length
  · rw [if_pos hlt]
    refine ⟨?_, by simp⟩
    exact RunInv_connect cfg hInv srcPos roomIndex connIdx (getOppositeWallIndex connIdx)
      (o.typeDraw st1.dIdx) (o.openDraw st1.dIdx) rfl rfl
  · rw [if_neg hlt]
    exact ⟨RunInv_congr hInv rfl rfl, rfl⟩

/-- When the commit index is out of range, the core commit crashes. -/
theorem connectionCommitCore_crash (cfg : GenConfig) (o : Oracle)
    (roomIndex srcPos connIdx : ℕ) (st1 : GenState)
    (hlen : st1.rooms.length ≤ roomIndex) :
    (connectionCommitCore cfg o roomIndex srcPos connIdx st1).crashed = true := by
  simp only [connectionCommitCore]
  rw [if_neg (Nat.not_lt.mpr hlen)]

/-- The full connection commit preserves the run invariant and the
room-list length. -/
theorem connectionCommit_inv (cfg : GenConfig) (o : Oracle)
    (roomIndex srcPos connIdx : ℕ) (st : GenState) (hInv : RunInv cfg st) :
    RunInv cfg (connectionCommit cfg o roomIndex srcPos connIdx st) ∧
    (connectionCommit cfg o roomIndex srcPos connIdx st).rooms.length =
      st.rooms.length := by
  simp only [connectionCommit]
  by_cases hc : (roomIndex : ℤ) < cfg.totalRooms
  · rw [if_pos hc]
    refine connectionCommitCore_inv cfg o roomIndex srcPos connIdx _ ?_
    exact RunInv_congr hInv rfl rfl
  · rw [if_neg hc]
    exact connectionCommitCore_inv cfg o roomIndex srcPos connIdx st hInv

/-- When the commit index is out of range, the commit crashes. -/
theorem connectionCommit_crash (cfg : GenConfig) (o : Oracle)
    (roomIndex srcPos connIdx : ℕ) (st : GenState)
    (hlen : st.rooms.length ≤ roomIndex) :
    (connectionCommit cfg o roomIndex srcPos connIdx st).crashed = true := by
  simp only [connectionCommit]
  by_cases hc : (roomIndex : ℤ) < cfg.totalRooms
  · rw [if_pos hc]
    exact connectionCommitCore_crash cfg o roomIndex srcPos connIdx _ hlen
  · rw [if_neg hc]
    exact connectionCommitCore_crash cfg o roomIndex srcPos connIdx st hlen

/-- The success branch of one retry iteration: after a successful
placement, the post-commit state either crashed or satisfies the run
invariant with at most roomIndex+1 rooms. -/
theorem connectionSuccess_inv (cfg : GenConfig) (o : Oracle)
    (creator : RoomData → RoomData) (hcr : ∀ r, creator r = r)
    (roomIndex srcPos connIdx n : ℕ) (st : GenState)
    (hInv : RunInv cfg st) (hlen : st.rooms.length ≤ roomIndex)
    (hsrc : srcPos < st.rooms.length)
    (hres : (tryGenerateConnectedRoom cfg o creator roomIndex srcPos connIdx n st).1 =
      true) :
    (connectionCommit cfg o roomIndex srcPos connIdx
        (tryGenerateConnectedRoom cfg o creator roomIndex srcPos connIdx n st).2).crashed =
      false →
    RunInv cfg (connectionCommit cfg o roomIndex srcPos connIdx
        (tryGenerateConnectedRoom cfg o creator roomIndex srcPos connIdx n st).2) ∧
    (connectionCommit cfg o roomIndex srcPos connIdx
        (tryGenerateConnectedRoom cfg o creator roomIndex srcPos connIdx n st).2).rooms.length ≤
      roomIndex + 1 := by
  intro hcf
  obtain ⟨-, -, hS⟩ := tryGenerateConnectedRoom_spec cfg o creator hcr roomIndex srcPos
    connIdx n st hInv hsrc
  obtain ⟨placed, hR, hL, hCommit⟩ := hS hres
  rcases eq_or_lt_of_le hlen with heq | hlt
  · have hcommit' : CommitOK cfg st.rooms srcPos st.rooms.length placed := by
      rw [heq]
      exact hCommit
    have hInvRes : RunInv cfg
        (tryGenerateConnectedRoom cfg o creator roomIndex srcPos connIdx n st).2 :=
      RunInv_append cfg placed srcPos hInv hR hL hsrc hcommit'
    obtain ⟨hOK, hLen⟩ := connectionCommit_inv cfg o roomIndex srcPos connIdx _ hInvRes
    refine ⟨hOK, ?_⟩
    rw [hLen, hR]
    simp only [List.length_append, List.length_singleton]
    omega
  · have hle : (tryGenerateConnectedRoom cfg o creator roomIndex srcPos connIdx
        n st).2.rooms.length ≤ roomIndex := by
      rw [hR]
      simp only [List.length_append, List.length_singleton]
      omega
    rw [connectionCommit_crash cfg o roomIndex srcPos connIdx _ hle] at hcf
    simp at hcf

set_option maxHeartbeats 1000000 in
/-- The connection-retry loop preserves the run invariant (modulo a
crash) and grows the room list by at most one room, committed at list
position `roomIndex`. -/
theorem connectionRetryLoop_inv (cfg : GenConfig) (o : Oracle)
    (creator : RoomData → RoomData) (hcr : ∀ r, creator r = r) (roomIndex : ℕ) :
    ∀ (fuel : ℕ) (retries : ℤ) (st : GenState), RunInv cfg st → st.crashed = false →
      st.rooms.length ≤ roomIndex →
      ((connectionRetryLoop cfg o creator roomIndex fuel retries st).2.crashed = false →
        RunInv cfg (connectionRetryLoop cfg o creator roomIndex fuel retries st).2 ∧
        (connectionRetryLoop cfg o creator roomIndex fuel retries st).2.rooms.length ≤
          roomIndex + 1) := by
  intro fuel
  induction fuel with
  | zero =>
    intro retries st hInv hcrash hlen _
    simp only [connectionRetryLoop]
    exact ⟨hInv, by omega⟩
  | succ fuel ih =>
    intro retries st hInv hcrash hlen
    simp only [connectionRetryLoop]
    split
    case isTrue hcond =>
      have hframe := checkSafetyLimits_frame cfg o { st with connCtr := st.connCtr + 1 }
      have hrooms : (checkSafetyLimits cfg o
          { st with connCtr := st.connCtr + 1 }).2.rooms = st.rooms := hframe.1
      have hlog : (checkSafetyLimits cfg o
          { st with connCtr := st.connCtr + 1 }).2.srcLog = st.srcLog := hframe.2.1
      have havail : (checkSafetyLimits cfg o
          { st with connCtr := st.connCtr + 1 }).2.available = st.available := hframe.2.2.1
      have hcrash2 : (checkSafetyLimits cfg o
          { st with connCtr := st.connCtr + 1 }).2.crashed = st.crashed := hframe.2.2.2.1
      split
      case isTrue htrip =>
        intro _
        refine ⟨RunInv_congr hInv hrooms hlog, ?_⟩
        rw [hrooms]
        omega
      case isFalse htrip =>
        generalize hst1 : (checkSafetyLimits cfg o
          { st with connCtr := st.connCtr + 1 }).2 = st1
        rw [hst1] at hrooms hlog havail hcrash2
        generalize hsp : st1.available.getD (o.pick st1.pIdx % st1.available.length) 0 = sp
        split
        case isTrue hge =>
          refine ih _ _ ?_ ?_ ?_
          · exact RunInv_congr hInv hrooms hlog
          · exact hcrash2.trans hcrash
          · have h := hlen
            rw [← hrooms] at h
            exact h
        case isFalse hge =>
          generalize hav : (st1.rooms.getD sp default).getAvailableConnections = av
          split
          case isTrue havE =>
            refine ih _ _ ?_ ?_ ?_
            · exact RunInv_congr hInv hrooms hlog
            · exact hcrash2.trans hcrash
            · have h := hlen
              rw [← hrooms] at h
              exact h
          case isFalse havE =>
            generalize hci : av.getD (o.pick (st1.pIdx + 1) % av.length) 0 = ci
            have hInvY : RunInv cfg ({ st1 with pIdx := st1.pIdx + 1 + 1 } : GenState) :=
              RunInv_congr hInv hrooms hlog
            have hspY : sp < ({ st1 with pIdx := st1.pIdx + 1 + 1 } : GenState).rooms.length :=
              Nat.lt_of_not_le hge
            have hlenY : ({ st1 with pIdx := st1.pIdx + 1 + 1 } :
                GenState).rooms.length ≤ roomIndex := by
              have h := hlen
              rw [← hrooms] at h
              exact h
            have hcY : ({ st1 with pIdx := st1.pIdx + 1 + 1 } : GenState).crashed = false :=
              hcrash2.trans hcrash
            split
            case isTrue hres =>
              exact connectionSuccess_inv cfg o creator hcr roomIndex sp ci
                cfg.maxAttemptsPerConnection.toNat _ hInvY hlenY hspY hres
            case isFalse hres =>
              obtain ⟨⟨-, hC⟩, hF, -⟩ := tryGenerateConnectedRoom_spec cfg o creator hcr
                roomIndex sp ci cfg.maxAttemptsPerConnection.toNat
                ({ st1 with pIdx := st1.pIdx + 1 + 1 } : GenState) hInvY hspY
              obtain ⟨hR, hL⟩ := hF (Bool.eq_false_iff.mpr hres)
              refine ih _ _ ?_ ?_ ?_
              · exact RunInv_congr hInvY hR hL
              · exact hC.trans hcY
              · rw [hR]
                exact hlenY
    case isFalse hcond =>
      intro _
      refine ⟨hInv, ?_⟩
      show st.rooms.length ≤ roomIndex + 1
      omega

/-- A state whose room list is exactly a well-formed initial unit and
whose source log is empty satisfies the run invariant. -/
theorem RunInv_init (cfg : GenConfig) (r : RoomData) (hinit : initRoomOK cfg r = true)
    (st : GenState) (hr : st.rooms = [r]) (hl : st.srcLog = []) : RunInv cfg st := by
  simp only [initRoomOK, Bool.and_eq_true, decide_eq_true_eq] at hinit
  obtain ⟨⟨hidx0, hval0⟩, hshape0⟩ := hinit
  refine ⟨?_, ?_, ?_, ?_, ?_, ?_, ?_⟩
  · rw [hr, hl]
    rfl
  · intro k hk
    rw [hr] at hk ⊢
    simp only [List.length_singleton] at hk
    obtain rfl : k = 0 := by omega
    simpa using hidx0
  · intro k hk
    rw [hr] at hk ⊢
    simp only [List.length_singleton] at hk
    obtain rfl : k = 0 := by omega
    simpa using hval0
  · intro k hk
    rw [hr] at hk ⊢
    simp only [List.length_singleton] at hk
    obtain rfl : k = 0 := by omega
    simpa using hshape0
  · intro j hj
    rw [hl] at hj
    simp at hj
  · intro j hj
    rw [hl] at hj
    simp at hj
  · intro i j hij hj _
    rw [hr] at hj
    simp only [List.length_singleton] at hj
    exact absurd hij (by omega)

/-- The main loop preserves the run invariant for non-crashed runs and
adds at most one room per fuel unit. -/
theorem mainLoop_inv (cfg : GenConfig) (o : Oracle)
    (creator : RoomData → RoomData) (hcr : ∀ r, creator r = r) :
    ∀ (n roomIndex : ℕ) (st : GenState), RunInv cfg st → st.crashed = false →
      st.rooms.length ≤ roomIndex →
      ((mainLoop cfg o creator n roomIndex st).crashed = false →
        RunInv cfg (mainLoop cfg o creator n roomIndex st) ∧
        (mainLoop cfg o creator n roomIndex st).rooms.length ≤ roomIndex + n) := by
  intro n
  induction n with
  | zero =>
    intro roomIndex st hInv hcrash hlen _
    simp only [mainLoop]
    exact ⟨hInv, by omega⟩
  | succ n ih =>
    intro roomIndex st hInv hcrash hlen
    simp only [mainLoop]
    split
    case isTrue hava =>
      intro _
      exact ⟨hInv, by omega⟩
    case isFalse hava =>
      have hframe := checkSafetyLimits_frame cfg o { st with mainCtr := st.mainCtr + 1 }
      have hrooms : (checkSafetyLimits cfg o
          { st with mainCtr := st.mainCtr + 1 }).2.rooms = st.rooms := hframe.1
      have hlog : (checkSafetyLimits cfg o
          { st with mainCtr := st.mainCtr + 1 }).2.srcLog = st.srcLog := hframe.2.1
      have hcrash2 : (checkSafetyLimits cfg o
          { st with mainCtr := st.mainCtr + 1 }).2.crashed = st.crashed := hframe.2.2.2.1
      split
      case isTrue htrip =>
        intro _
        refine ⟨RunInv_congr hInv hrooms hlog, ?_⟩
        rw [hrooms]
        omega
      case isFalse htrip =>
        generalize hst1 : (checkSafetyLimits cfg o
          { st with mainCtr := st.mainCtr + 1 }).2 = st1
        rw [hst1] at hrooms hlog hcrash2
        have hloop := connectionRetryLoop_inv cfg o creator hcr roomIndex
          (cfg.maxConnectionRetries.toNat + 1) 0 st1
          (RunInv_congr hInv hrooms hlog) (hcrash2.trans hcrash)
          (by rw [hrooms]; exact hlen)
        split
        case isTrue hcrL =>
          intro hc
          rw [hcrL] at hc
          simp at hc
        case isFalse hcrL =>
          obtain ⟨hI, hL⟩ := hloop (Bool.eq_false_iff.mpr hcrL)
          split
          case isTrue hstop =>
            intro _
            refine ⟨RunInv_congr hI rfl rfl, ?_⟩
            have hL2 : (connectionRetryLoop cfg o creator roomIndex
                (cfg.maxConnectionRetries.toNat + 1) 0 st1).2.rooms.length ≤
                roomIndex + (n + 1) := by omega
            exact hL2
          case isFalse hstop =>
            intro hc
            refine And.imp id (fun h => by omega) (ih (roomIndex + 1) _ ?_ ?_ ?_ hc)
            · exact RunInv_congr hI rfl rfl
            · exact Bool.eq_false_iff.mpr hcrL
            · exact hL

/-- A full generation run starting from a well-formed initial unit
satisfies the run invariant whenever it does not crash. -/
theorem executeProceduralGeneration_inv (initialRoom : RoomData) (cfg : GenConfig)
    (o : Oracle) (creator : RoomData → RoomData) (hcr : ∀ r, creator r = r)
    (hinit : initRoomOK cfg initialRoom = true) :
    (executeProceduralGeneration initialRoom cfg o creator).crashed = false →
    RunInv cfg (executeProceduralGeneration initialRoom cfg o creator) := by
  simp only [executeProceduralGeneration]
  intro hc
  obtain ⟨hI, -⟩ := mainLoop_inv cfg o creator hcr (cfg.totalRooms - 1).toNat 1 _
    (RunInv_init cfg initialRoom hinit _ rfl rfl) rfl (by simp) hc
  exact RunInv_congr hI rfl rfl

/-- Unfolding of connShapeOK into the two cardinality statements. -/
theorem connShapeOK_spec (r : RoomData) (h : connShapeOK r = true) :
    (r.category = .stairs →
      r.connections.map RoomConnection.wallSide = [oppositeSide r.stairDirection] ∧
      r.stairDirection ≠ WallSide.none) ∧
    (r.category ≠ .stairs →
      r.connections.map RoomConnection.wallSide =
        [WallSide.north, WallSide.south, WallSide.east, WallSide.west]) := by
  by_cases hc : r.category = .stairs
  · simp only [connShapeOK, hc, if_true, Bool.and_eq_true, decide_eq_true_eq] at h
    exact ⟨fun _ => h, fun hne => absurd hc hne⟩
  · simp only [connShapeOK, hc, if_false, decide_eq_true_eq] at h
    exact ⟨fun hs => absurd hs hc, fun _ => h⟩

/-- Claim C1 (amended): in a non-crashed generation run from a
well-formed initial unit, for every pair of committed units where the
earlier unit is not the recorded source of the later one, the later
unit's buffer-expanded bounding box does not intersect the earlier
unit's bounding box.  (The unamended claim is refuted by
c1_counterexample: a unit and its own source, on the same level, do
overlap once both margins are counted, because the collision test
excludes the source and expands only by the small buffer.) -/
theorem c1_no_overlap_amended (initialRoom : RoomData) (cfg : GenConfig) (o : Oracle)
    (creator : RoomData → RoomData) (hcr : ∀ r, creator r = r)
    (hinit : initRoomOK cfg initialRoom = true)
    (hnc : (executeProceduralGeneration initialRoom cfg o creator).crashed = false) :
    ∀ i j, i < j →
      j < (executeProceduralGeneration initialRoom cfg o creator).rooms.length →
      (executeProceduralGeneration initialRoom cfg o creator).srcLog.getD (j - 1) 0 ≠ i →
      boxIntersect
        (getExpandedBounds
          ((executeProceduralGeneration initialRoom cfg o creator).rooms.getD j default)
          cfg)
        (((executeProceduralGeneration initialRoom cfg o creator).rooms.getD i
            default).getBoundingBox) = false :=
  fun i j hij hj hlog =>
    (executeProceduralGeneration_inv initialRoom cfg o creator hcr hinit hnc).sep
      i j hij hj hlog

/-- Witness for C1 at a concrete three-unit run (room-only config, zero
oracle): units 1 and 2 are both sourced from unit 0, and their boxes do
not intersect. -/
theorem c1_no_overlap_amended_witness :
    (∀ r : RoomData, id r = r) ∧
    initRoomOK cfg3 (callerInitialRoom cfg3) = true ∧
    (executeProceduralGeneration (callerInitialRoom cfg3) cfg3 zeroOracle id).crashed =
      false ∧
    1 < 2 ∧
    2 < (executeProceduralGeneration (callerInitialRoom cfg3) cfg3
          zeroOracle id).rooms.length ∧
    (executeProceduralGeneration (callerInitialRoom cfg3) cfg3
        zeroOracle id).srcLog.getD (2 - 1) 0 ≠ 1 ∧
    boxIntersect
      (getExpandedBounds
        ((executeProceduralGeneration (callerInitialRoom cfg3) cfg3
            zeroOracle id).rooms.getD 2 default) cfg3)
      (((executeProceduralGeneration (callerInitialRoom cfg3) cfg3
          zeroOracle id).rooms.getD 1 default).getBoundingBox) = false :=
  ⟨fun _ => rfl, by with_unfolding_all decide, by with_unfolding_all decide,
   by decide, by with_unfolding_all decide, by with_unfolding_all decide,
   c1_no_overlap_amended (callerInitialRoom cfg3) cfg3 zeroOracle id (fun _ => rfl)
     (by with_unfolding_all decide) (by with_unfolding_all decide) 1 2 (by decide)
     (by with_unfolding_all decide) (by with_unfolding_all decide)⟩

/-- Claim C3: in a non-crashed generation run from a well-formed
initial unit, every committed Stairs unit carries exactly one
connection, on the wall opposite its (non-None) ascent direction, and
every committed Room or Hallway unit carries exactly four connections,
one per wall in North/South/East/West order. -/
theorem c3_connection_cardinality (initialRoom : RoomData) (cfg : GenConfig)
    (o : Oracle) (creator : RoomData → RoomData) (hcr : ∀ r, creator r = r)
    (hinit : initRoomOK cfg initialRoom = true)
    (hnc : (executeProceduralGeneration initialRoom cfg o creator).crashed = false) :
    ∀ k, k < (executeProceduralGeneration initialRoom cfg o creator).rooms.length →
      (((executeProceduralGeneration initialRoom cfg o creator).rooms.getD k
          default).category = .stairs →
        ((executeProceduralGeneration initialRoom cfg o creator).rooms.getD k
            default).connections.map RoomConnection.wallSide =
          [oppositeSide ((executeProceduralGeneration initialRoom cfg o
              creator).rooms.getD k default).stairDirection] ∧
        ((executeProceduralGeneration initialRoom cfg o creator).rooms.getD k
            default).stairDirection ≠ WallSide.none) ∧
      (((executeProceduralGeneration initialRoom cfg o creator).rooms.getD k
          default).category ≠ .stairs →
        ((executeProceduralGeneration initialRoom cfg o creator).rooms.getD k
            default).connections.map RoomConnection.wallSide =
          [WallSide.north, WallSide.south, WallSide.east, WallSide.west]) :=
  fun k hk => connShapeOK_spec _
    ((executeProceduralGeneration_inv initialRoom cfg o creator hcr hinit hnc).shape k hk)

/-- Witness for C3 at the concrete all-stairs run: the committed stairs
unit (index 1) has the single opposite-wall connection, the initial Room
unit (index 0) the four per-wall connections. -/
theorem c3_connection_cardinality_witness :
    (∀ r : RoomData, id r = r) ∧
    initRoomOK defaultConfig (callerInitialRoom defaultConfig) = true ∧
    (executeProceduralGeneration (callerInitialRoom defaultConfig) defaultConfig
        stairsOracle id).crashed = false ∧
    1 < (executeProceduralGeneration (callerInitialRoom defaultConfig) defaultConfig
        stairsOracle id).rooms.length ∧
    ((executeProceduralGeneration (callerInitialRoom defaultConfig) defaultConfig
        stairsOracle id).rooms.getD 1 default).category = RoomCategory.stairs ∧
    ((executeProceduralGeneration (callerInitialRoom defaultConfig) defaultConfig
        stairsOracle id).rooms.getD 1 default).connections.map RoomConnection.wallSide =
      [oppositeSide ((executeProceduralGeneration (callerInitialRoom defaultConfig)
          defaultConfig stairsOracle id).rooms.getD 1 default).stairDirection] ∧
    ((executeProceduralGeneration (callerInitialRoom defaultConfig) defaultConfig
        stairsOracle id).rooms.getD 0 default).category ≠ RoomCategory.stairs ∧
    ((executeProceduralGeneration (callerInitialRoom defaultConfig) defaultConfig
        stairsOracle id).rooms.getD 0 default).connections.map RoomConnection.wallSide =
      [WallSide.north, WallSide.south, WallSide.east, WallSide.west] :=
  ⟨fun _ => rfl, by with_unfolding_all decide, by with_unfolding_all decide,
   by with_unfolding_all decide, by with_unfolding_all decide,
   ((c3_connection_cardinality (callerInitialRoom defaultConfig) defaultConfig
       stairsOracle id (fun _ => rfl) (by with_unfolding_all decide)
       (by with_unfolding_all decide) 1 (by with_unfolding_all decide)).1
     (by with_unfolding_all decide)).1,
   by with_unfolding_all decide,
   (c3_connection_cardinality (callerInitialRoom defaultConfig) defaultConfig
       stairsOracle id (fun _ => rfl) (by with_unfolding_all decide)
       (by with_unfolding_all decide) 0 (by with_unfolding_all decide)).2
     (by with_unfolding_all decide)⟩

/-- Claim C4: the category drawn for a candidate whose immediate source
is Stairs is never Stairs, for every configuration (including zero room
and hallway ratios), and in a non-crashed generation run from a
well-formed initial unit no committed unit of category Stairs has a
recorded source of category Stairs. -/
theorem c4_no_stairs_after_stairs (initialRoom : RoomData) (cfg : GenConfig)
    (o : Oracle) (creator : RoomData → RoomData) (hcr : ∀ r, creator r = r)
    (hinit : initRoomOK cfg initialRoom = true)
    (hnc : (executeProceduralGeneration initialRoom cfg o creator).crashed = false) :
    (∀ (cfg2 : GenConfig) (rv : ℚ),
      determineRoomCategory RoomCategory.stairs cfg2 rv ≠ RoomCategory.stairs) ∧
    ∀ j, j < (executeProceduralGeneration initialRoom cfg o creator).srcLog.length →
      ((executeProceduralGeneration initialRoom cfg o creator).rooms.getD (j + 1)
          default).category = .stairs →
      ((executeProceduralGeneration initialRoom cfg o creator).rooms.getD
          ((executeProceduralGeneration initialRoom cfg o creator).srcLog.getD j 0)
          default).category ≠ .stairs :=
  ⟨fun cfg2 rv h => determineRoomCategory_stairs_source RoomCategory.stairs cfg2 rv h rfl,
   fun j hj =>
     (executeProceduralGeneration_inv initialRoom cfg o creator hcr hinit hnc).noStairPair
       j hj⟩

/-- Witness for C4 at the concrete all-stairs run (room and hallway
ratios both zero): the stairs unit committed at index 1 has the Room
unit 0 as its recorded source. -/
theorem c4_no_stairs_after_stairs_witness :
    (∀ r : RoomData, id r = r) ∧
    initRoomOK defaultConfig (callerInitialRoom defaultConfig) = true ∧
    (executeProceduralGeneration (callerInitialRoom defaultConfig) defaultConfig
        stairsOracle id).crashed = false ∧
    determineRoomCategory RoomCategory.stairs defaultConfig 0 ≠ RoomCategory.stairs ∧
    0 < (executeProceduralGeneration (callerInitialRoom defaultConfig) defaultConfig
        stairsOracle id).srcLog.length ∧
    ((executeProceduralGeneration (callerInitialRoom defaultConfig) defaultConfig
        stairsOracle id).rooms.getD (0 + 1) default).category = RoomCategory.stairs ∧
    ((executeProceduralGeneration (callerInitialRoom defaultConfig) defaultConfig
        stairsOracle id).rooms.getD
        ((executeProceduralGeneration (callerInitialRoom defaultConfig) defaultConfig
            stairsOracle id).srcLog.getD 0 0) default).category ≠ RoomCategory.stairs :=
  ⟨fun _ => rfl, by with_unfolding_all decide, by with_unfolding_all decide,
   (c4_no_stairs_after_stairs (callerInitialRoom defaultConfig) defaultConfig
       stairsOracle id (fun _ => rfl) (by with_unfolding_all decide)
       (by with_unfolding_all decide)).1 defaultConfig 0,
   by with_unfolding_all decide, by with_unfolding_all decide,
   (c4_no_stairs_after_stairs (callerInitialRoom defaultConfig) defaultConfig
       stairsOracle id (fun _ => rfl) (by with_unfolding_all decide)
       (by with_unfolding_all decide)).2 0 (by with_unfolding_all decide)
     (by with_unfolding_all decide)⟩

/-- The connection commit changes no counter and not the stopped flag. -/
theorem connectionCommit_ctrs (cfg : GenConfig) (o : Oracle)
    (roomIndex srcPos connIdx : ℕ) (st : GenState) :
    (connectionCommit cfg o roomIndex srcPos connIdx st).mainCtr = st.mainCtr ∧
    (connectionCommit cfg o roomIndex srcPos connIdx st).connCtr = st.connCtr ∧
    (connectionCommit cfg o roomIndex srcPos connIdx st).placCtr = st.placCtr ∧
    (connectionCommit cfg o roomIndex srcPos connIdx st).stopped = st.stopped := by
  refine ⟨?_, ?_, ?_, ?_⟩ <;>
    { simp only [connectionCommit, connectionCommitCore]
      split <;> split <;> rfl }

/-- The placement-attempt loop touches only the placement counter, which
stays bounded by max(MaxSafetyIterations, 1); as long as the run is not
stopped the bound is strict. -/
theorem tryGenerateConnectedRoom_ctrs (cfg : GenConfig) (o : Oracle)
    (creator : RoomData → RoomData) (roomIndex srcPos connIdx : ℕ) :
    ∀ (n : ℕ) (st : GenState),
      (st.placCtr : ℤ) < max cfg.maxSafetyIterations 1 →
      (((tryGenerateConnectedRoom cfg o creator roomIndex srcPos connIdx n st).2.mainCtr =
          st.mainCtr ∧
        (tryGenerateConnectedRoom cfg o creator roomIndex srcPos connIdx n st).2.connCtr =
          st.connCtr) ∧
       ((tryGenerateConnectedRoom cfg o creator roomIndex srcPos connIdx
          n st).2.placCtr : ℤ) ≤ max cfg.maxSafetyIterations 1 ∧
       ((tryGenerateConnectedRoom cfg o creator roomIndex srcPos connIdx n st).2.stopped =
          false →
        ((tryGenerateConnectedRoom cfg o creator roomIndex srcPos connIdx
           n st).2.placCtr : ℤ) < max cfg.maxSafetyIterations 1)) := by
  intro n
  induction n with
  | zero =>
    intro st h
    simp only [tryGenerateConnectedRoom]
    exact ⟨⟨by trivial, by trivial⟩, h.le, fun _ => h⟩
  | succ n ih =>
    intro st h
    have hMB := le_max_left cfg.maxSafetyIterations 1
    have hframe := checkSafetyLimits_frame cfg o { st with placCtr := st.placCtr + 1 }
    have hmainF : (checkSafetyLimits cfg o
        { st with placCtr := st.placCtr + 1 }).2.mainCtr = st.mainCtr :=
      hframe.2.2.2.2.1
    have hconnF : (checkSafetyLimits cfg o
        { st with placCtr := st.placCtr + 1 }).2.connCtr = st.connCtr :=
      hframe.2.2.2.2.2.1
    have hplacF : (checkSafetyLimits cfg o
        { st with placCtr := st.placCtr + 1 }).2.placCtr = st.placCtr + 1 :=
      hframe.2.2.2.2.2.2
    have hstop := checkSafetyLimits_stopped cfg o { st with placCtr := st.placCtr + 1 }
    simp only [tryGenerateConnectedRoom]
    split
    case isTrue htrip =>
      refine ⟨⟨hmainF, hconnF⟩, ?_, ?_⟩
      · rw [hplacF]
        omega
      · intro hs
        rw [hstop.1 htrip] at hs
        simp at hs
    case isFalse htrip =>
      have hpass := checkSafetyLimits_pass_bounds cfg o
        { st with placCtr := st.placCtr + 1 } (Bool.eq_false_iff.mpr htrip)
      have hp2 : ((st.placCtr + 1 : ℕ) : ℤ) < cfg.maxSafetyIterations := hpass.2.2
      generalize hst1 : (checkSafetyLimits cfg o
        { st with placCtr := st.placCtr + 1 }).2 = st1
      rw [hst1] at hmainF hconnF hplacF
      generalize hsr : st1.rooms.getD srcPos default = sr
      generalize hcat : determineRoomCategory sr.category cfg (o.catDraw st1.cIdx) = cat
      generalize hopt : (if cat = RoomCategory.stairs then some sr else Option.none) =
        srcOpt
      generalize hgen : generateRoomOfCategory cat (roomIndex : ℤ) srcOpt connIdx
        (o.rng st1.rIdx) o.pick st1.pIdx = gen
      generalize hpp : tryPlaceRoom sr connIdx gen.1 st1.rooms cfg creator = pp
      split
      case isTrue hplaced =>
        refine ⟨⟨?_, ?_⟩, ?_, ?_⟩
        · exact hmainF
        · exact hconnF
        · show ((st1.placCtr : ℕ) : ℤ) ≤ max cfg.maxSafetyIterations 1
          rw [hplacF]
          omega
        · intro _
          show ((st1.placCtr : ℕ) : ℤ) < max cfg.maxSafetyIterations 1
          rw [hplacF]
          omega
      case isFalse hplaced =>
        have hB : ((st1.placCtr : ℕ) : ℤ) < max cfg.maxSafetyIterations 1 := by
          rw [hplacF]
          omega
        refine ⟨⟨?_, ?_⟩, ?_, ?_⟩
        · exact ((ih _ (by exact hB)).1.1).trans hmainF
        · exact ((ih _ (by exact hB)).1.2).trans hconnF
        · exact (ih _ (by exact hB)).2.1
        · exact (ih _ (by exact hB)).2.2

set_option maxHeartbeats 1000000 in
/-- The connection-retry loop leaves the main counter alone and keeps
the connection and placement counters bounded by
max(MaxSafetyIterations, 1), strictly so while the run is not stopped. -/
theorem connectionRetryLoop_ctrs (cfg : GenConfig) (o : Oracle)
    (creator : RoomData → RoomData) (roomIndex : ℕ) :
    ∀ (fuel : ℕ) (retries : ℤ) (st : GenState),
      (st.connCtr : ℤ) < max cfg.maxSafetyIterations 1 →
      (st.placCtr : ℤ) ≤ max cfg.maxSafetyIterations 1 →
      (st.stopped = false → (st.placCtr : ℤ) < max cfg.maxSafetyIterations 1) →
      ((connectionRetryLoop cfg o creator roomIndex fuel retries st).2.mainCtr =
        st.mainCtr ∧
       ((connectionRetryLoop cfg o creator roomIndex fuel retries st).2.connCtr : ℤ) ≤
        max cfg.maxSafetyIterations 1 ∧
       ((connectionRetryLoop cfg o creator roomIndex fuel retries st).2.placCtr : ℤ) ≤
        max cfg.maxSafetyIterations 1 ∧
       ((connectionRetryLoop cfg o creator roomIndex fuel retries st).2.stopped = false →
        ((connectionRetryLoop cfg o creator roomIndex fuel retries st).2.connCtr : ℤ) <
          max cfg.maxSafetyIterations 1 ∧
        ((connectionRetryLoop cfg o creator roomIndex fuel retries st).2.placCtr : ℤ) <
          max cfg.maxSafetyIterations 1)) := by
  intro fuel
  induction fuel with
  | zero =>
    intro retries st h1 h2 h3
    simp only [connectionRetryLoop]
    exact ⟨by trivial, h1.le, h2, fun hs => ⟨h1, h3 hs⟩⟩
  | succ fuel ih =>
    intro retries st h1 h2 h3
    have hMB := le_max_left cfg.maxSafetyIterations 1
    simp only [connectionRetryLoop]
    split
    case isFalse hcond =>
      exact ⟨by trivial, h1.le, h2, fun hs => ⟨h1, h3 hs⟩⟩
    case isTrue hcond =>
      have hframe := checkSafetyLimits_frame cfg o { st with connCtr := st.connCtr + 1 }
      have hmainF : (checkSafetyLimits cfg o
          { st with connCtr := st.connCtr + 1 }).2.mainCtr = st.mainCtr :=
        hframe.2.2.2.2.1
      have hconnF : (checkSafetyLimits cfg o
          { st with connCtr := st.connCtr + 1 }).2.connCtr = st.connCtr + 1 :=
        hframe.2.2.2.2.2.1
      have hplacF : (checkSafetyLimits cfg o
          { st with connCtr := st.connCtr + 1 }).2.placCtr = st.placCtr :=
        hframe.2.2.2.2.2.2
      have hstop := checkSafetyLimits_stopped cfg o { st with connCtr := st.connCtr + 1 }
      split
      case isTrue htrip =>
        refine ⟨hmainF, ?_, ?_, ?_⟩
        · rw [hconnF]
          push_cast
          omega
        · rw [hplacF]
          omega
        · intro hs
          rw [hstop.1 htrip] at hs
          simp at hs
      case isFalse htrip =>
        have hpass := checkSafetyLimits_pass_bounds cfg o
          { st with connCtr := st.connCtr + 1 } (Bool.eq_false_iff.mpr htrip)
        have hc2 : ((st.connCtr + 1 : ℕ) : ℤ) < cfg.maxSafetyIterations := hpass.2.1
        have hp2 : (st.placCtr : ℤ) < cfg.maxSafetyIterations := hpass.2.2
        have hstop2 : (checkSafetyLimits cfg o
            { st with connCtr := st.connCtr + 1 }).2.stopped = st.stopped :=
          hstop.2 (Bool.eq_false_iff.mpr htrip)
        generalize hst1 : (checkSafetyLimits cfg o
          { st with connCtr := st.connCtr + 1 }).2 = st1
        rw [hst1] at hmainF hconnF hplacF hstop2
        have hcB : (st1.connCtr : ℤ) < max cfg.maxSafetyIterations 1 := by
          rw [hconnF]
          push_cast
          omega
        have hpB : (st1.placCtr : ℤ) < max cfg.maxSafetyIterations 1 := by
          rw [hplacF]
          omega
        generalize hsp : st1.available.getD (o.pick st1.pIdx % st1.available.length) 0 = sp
        split
        case isTrue hge =>
          refine ⟨?_, ?_, ?_, ?_⟩
          · exact ((ih _ _ (by exact hcB) (by exact hpB.le)
              (fun _ => by exact hpB)).1).trans hmainF
          · exact (ih _ _ (by exact hcB) (by exact hpB.le) (fun _ => by exact hpB)).2.1
          · exact (ih _ _ (by exact hcB) (by exact hpB.le) (fun _ => by exact hpB)).2.2.1
          · exact (ih _ _ (by exact hcB) (by exact hpB.le) (fun _ => by exact hpB)).2.2.2
        case isFalse hge =>
          generalize hav : (st1.rooms.getD sp default).getAvailableConnections = av
          split
          case isTrue havE =>
            refine ⟨?_, ?_, ?_, ?_⟩
            · exact ((ih _ _ (by exact hcB) (by exact hpB.le)
                (fun _ => by exact hpB)).1).trans hmainF
            · exact (ih _ _ (by exact hcB) (by exact hpB.le) (fun _ => by exact hpB)).2.1
            · exact (ih _ _ (by exact hcB) (by exact hpB.le)
                (fun _ => by exact hpB)).2.2.1
            · exact (ih _ _ (by exact hcB) (by exact hpB.le)
                (fun _ => by exact hpB)).2.2.2
          case isFalse havE =>
            generalize hci : av.getD (o.pick (st1.pIdx + 1) % av.length) 0 = ci
            have htg := tryGenerateConnectedRoom_ctrs cfg o creator roomIndex sp ci
              cfg.maxAttemptsPerConnection.toNat
              ({ st1 with pIdx := st1.pIdx + 1 + 1 } : GenState) (by exact hpB)
            have htgM : (tryGenerateConnectedRoom cfg o creator roomIndex sp ci
                cfg.maxAttemptsPerConnection.toNat
                { st1 with pIdx := st1.pIdx + 1 + 1 }).2.mainCtr = st.mainCtr :=
              (htg.1.1).trans hmainF
            have htgC : (tryGenerateConnectedRoom cfg o creator roomIndex sp ci
                cfg.maxAttemptsPerConnection.toNat
                { st1 with pIdx := st1.pIdx + 1 + 1 }).2.connCtr = st.connCtr + 1 :=
              (htg.1.2).trans hconnF
            have htgP : ((tryGenerateConnectedRoom cfg o creator roomIndex sp ci
                cfg.maxAttemptsPerConnection.toNat
                { st1 with pIdx := st1.pIdx + 1 + 1 }).2.placCtr : ℤ) ≤
                max cfg.maxSafetyIterations 1 := htg.2.1
            have htgPs : (tryGenerateConnectedRoom cfg o creator roomIndex sp ci
                cfg.maxAttemptsPerConnection.toNat
                { st1 with pIdx := st1.pIdx + 1 + 1 }).2.stopped = false →
                ((tryGenerateConnectedRoom cfg o creator roomIndex sp ci
                  cfg.maxAttemptsPerConnection.toNat
                  { st1 with pIdx := st1.pIdx + 1 + 1 }).2.placCtr : ℤ) <
                max cfg.maxSafetyIterations 1 := htg.2.2
            have htgCB : ((tryGenerateConnectedRoom cfg o creator roomIndex sp ci
                cfg.maxAttemptsPerConnection.toNat
                { st1 with pIdx := st1.pIdx + 1 + 1 }).2.connCtr : ℤ) <
                max cfg.maxSafetyIterations 1 := by
              rw [htgC]
              push_cast
              omega
            split
            case isTrue hres =>
              have hcc := connectionCommit_ctrs cfg o roomIndex sp ci
                (tryGenerateConnectedRoom cfg o creator roomIndex sp ci
                  cfg.maxAttemptsPerConnection.toNat
                  { st1 with pIdx := st1.pIdx + 1 + 1 }).2
              refine ⟨?_, ?_, ?_, ?_⟩
              · exact (hcc.1).trans htgM
              · show ((connectionCommit cfg o roomIndex sp ci _).connCtr : ℤ) ≤ _
                rw [hcc.2.1]
                exact htgCB.le
              · show ((connectionCommit cfg o roomIndex sp ci _).placCtr : ℤ) ≤ _
                rw [hcc.2.2.1]
                exact htgP
              · intro hs
                have hs2 : (tryGenerateConnectedRoom cfg o creator roomIndex sp ci
                    cfg.maxAttemptsPerConnection.toNat
                    { st1 with pIdx := st1.pIdx + 1 + 1 }).2.stopped = false := by
                  rw [← hcc.2.2.2]
                  exact hs
                constructor
                · show ((connectionCommit cfg o roomIndex sp ci _).connCtr : ℤ) < _
                  rw [hcc.2.1]
                  exact htgCB
                · show ((connectionCommit cfg o roomIndex sp ci _).placCtr : ℤ) < _
                  rw [hcc.2.2.1]
                  exact htgPs hs2
            case isFalse hres =>
              refine ⟨?_, ?_, ?_, ?_⟩
              · exact ((ih _ _ (by exact htgCB) (by exact htgP)
                  (fun hs => by exact htgPs hs)).1).trans htgM
              · exact (ih _ _ (by exact htgCB) (by exact htgP)
                  (fun hs => by exact htgPs hs)).2.1
              · exact (ih _ _ (by exact htgCB) (by exact htgP)
                  (fun hs => by exact htgPs hs)).2.2.1
              · exact (ih _ _ (by exact htgCB) (by exact htgP)
                  (fun hs => by exact htgPs hs)).2.2.2

set_option maxHeartbeats 1000000 in
/-- The main loop keeps all three counters bounded by
max(MaxSafetyIterations, 1). -/
theorem mainLoop_ctrs (cfg : GenConfig) (o : Oracle) (creator : RoomData → RoomData) :
    ∀ (n ri : ℕ) (st : GenState),
      (st.mainCtr : ℤ) < max cfg.maxSafetyIterations 1 →
      (st.connCtr : ℤ) < max cfg.maxSafetyIterations 1 →
      (st.placCtr : ℤ) < max cfg.maxSafetyIterations 1 →
      (((mainLoop cfg o creator n ri st).mainCtr : ℤ) ≤ max cfg.maxSafetyIterations 1 ∧
       ((mainLoop cfg o creator n ri st).connCtr : ℤ) ≤ max cfg.maxSafetyIterations 1 ∧
       ((mainLoop cfg o creator n ri st).placCtr : ℤ) ≤ max cfg.maxSafetyIterations 1) := by
  intro n
  induction n with
  | zero =>
    intro ri st h1 h2 h3
    simp only [mainLoop]
    exact ⟨h1.le, h2.le, h3.le⟩
  | succ n ih =>
    intro ri st h1 h2 h3
    have hMB := le_max_left cfg.maxSafetyIterations 1
    simp only [mainLoop]
    split
    case isTrue hava =>
      exact ⟨h1.le, h2.le, h3.le⟩
    case isFalse hava =>
      have hframe := checkSafetyLimits_frame cfg o { st with mainCtr := st.mainCtr + 1 }
      have hmainF : (checkSafetyLimits cfg o
          { st with mainCtr := st.mainCtr + 1 }).2.mainCtr = st.mainCtr + 1 :=
        hframe.2.2.2.2.1
      have hconnF : (checkSafetyLimits cfg o
          { st with mainCtr := st.mainCtr + 1 }).2.connCtr = st.connCtr :=
        hframe.2.2.2.2.2.1
      have hplacF : (checkSafetyLimits cfg o
          { st with mainCtr := st.mainCtr + 1 }).2.placCtr = st.placCtr :=
        hframe.2.2.2.2.2.2
      have hstop := checkSafetyLimits_stopped cfg o { st with mainCtr := st.mainCtr + 1 }
      split
      case isTrue htrip =>
        refine ⟨?_, ?_, ?_⟩
        · rw [hmainF]
          push_cast
          omega
        · rw [hconnF]
          omega
        · rw [hplacF]
          omega
      case isFalse htrip =>
        have hpass := checkSafetyLimits_pass_bounds cfg o
          { st with mainCtr := st.mainCtr + 1 } (Bool.eq_false_iff.mpr htrip)
        have hm2 : ((st.mainCtr + 1 : ℕ) : ℤ) < cfg.maxSafetyIterations := hpass.1
        have hc2 : (st.connCtr : ℤ) < cfg.maxSafetyIterations := hpass.2.1
        have hp2 : (st.placCtr : ℤ) < cfg.maxSafetyIterations := hpass.2.2
        generalize hst1 : (checkSafetyLimits cfg o
          { st with mainCtr := st.mainCtr + 1 }).2 = st1
        rw [hst1] at hmainF hconnF hplacF
        have hloop := connectionRetryLoop_ctrs cfg o creator ri
          (cfg.maxConnectionRetries.toNat + 1) 0 st1
          (by rw [hconnF]; omega) (by rw [hplacF]; omega) (fun _ => by rw [hplacF]; omega)
        have hLm : ((connectionRetryLoop cfg o creator ri
            (cfg.maxConnectionRetries.toNat + 1) 0 st1).2.mainCtr : ℤ) <
            max cfg.maxSafetyIterations 1 := by
          rw [hloop.1, hmainF]
          push_cast
          omega
        have hLc := hloop.2.1
        have hLp := hloop.2.2.1
        have hLs := hloop.2.2.2
        split
        case isTrue hcrL =>
          exact ⟨hLm.le, hLc, hLp⟩
        case isFalse hcrL =>
          split
          case isTrue hstopL =>
            exact ⟨hLm.le, hLc, hLp⟩
          case isFalse hstopL =>
            have hsfalse : (connectionRetryLoop cfg o creator ri
                (cfg.maxConnectionRetries.toNat + 1) 0 st1).2.stopped = false :=
              Bool.eq_false_iff.mpr hstopL
            refine ⟨?_, ?_, ?_⟩
            · exact (ih _ _ (by exact hLm) (by exact (hLs hsfalse).1)
                (by exact (hLs hsfalse).2)).1
            · exact (ih _ _ (by exact hLm) (by exact (hLs hsfalse).1)
                (by exact (hLs hsfalse).2)).2.1
            · exact (ih _ _ (by exact hLm) (by exact (hLs hsfalse).1)
                (by exact (hLs hsfalse).2)).2.2

/-- A full generation run's three safety counters are bounded by
max(MaxSafetyIterations, 1). -/
theorem executeProceduralGeneration_ctrs (initialRoom : RoomData) (cfg : GenConfig)
    (o : Oracle) (creator : RoomData → RoomData) :
    (((executeProceduralGeneration initialRoom cfg o creator).mainCtr : ℤ) ≤
      max cfg.maxSafetyIterations 1 ∧
     ((executeProceduralGeneration initialRoom cfg o creator).connCtr : ℤ) ≤
      max cfg.maxSafetyIterations 1 ∧
     ((executeProceduralGeneration initialRoom cfg o creator).placCtr : ℤ) ≤
      max cfg.maxSafetyIterations 1) := by
  have hB1 := le_max_right cfg.maxSafetyIterations 1
  simp only [executeProceduralGeneration]
  refine ⟨?_, ?_, ?_⟩
  · exact (mainLoop_ctrs cfg o creator _ _ _ (by show ((0 : ℕ) : ℤ) < max cfg.maxSafetyIterations 1; omega) (by show ((0 : ℕ) : ℤ) < max cfg.maxSafetyIterations 1; omega)
      (by show ((0 : ℕ) : ℤ) < max cfg.maxSafetyIterations 1; omega)).1
  · exact (mainLoop_ctrs cfg o creator _ _ _ (by show ((0 : ℕ) : ℤ) < max cfg.maxSafetyIterations 1; omega) (by show ((0 : ℕ) : ℤ) < max cfg.maxSafetyIterations 1; omega)
      (by show ((0 : ℕ) : ℤ) < max cfg.maxSafetyIterations 1; omega)).2.1
  · exact (mainLoop_ctrs cfg o creator _ _ _ (by show ((0 : ℕ) : ℤ) < max cfg.maxSafetyIterations 1; omega) (by show ((0 : ℕ) : ℤ) < max cfg.maxSafetyIterations 1; omega)
      (by show ((0 : ℕ) : ℤ) < max cfg.maxSafetyIterations 1; omega)).2.2

/-- A safety check whose post-clock state exceeds the time limit or
whose any counter has reached MaxSafetyIterations trips and sets the
stopped flag. -/
theorem checkSafetyLimits_trip (cfg : GenConfig) (o : Oracle) (st : GenState)
    (h : o.time st.tIdx - st.startTime > cfg.maxGenerationTime ∨
      (st.mainCtr : ℤ) ≥ cfg.maxSafetyIterations ∨
      (st.connCtr : ℤ) ≥ cfg.maxSafetyIterations ∨
      (st.placCtr : ℤ) ≥ cfg.maxSafetyIterations) :
    (checkSafetyLimits cfg o st).1 = true ∧
    (checkSafetyLimits cfg o st).2.stopped = true := by
  simp only [checkSafetyLimits]
  repeat' split
  all_goals first
    | exact ⟨by trivial, by trivial⟩
    | (rcases h with h | h | h | h <;> exact absurd h (by assumption))

/-- Claim C2: every generation run is halted by the safety layer — the
three iteration counters of a full run never exceed
max(MaxSafetyIterations, 1); a safety check whose clock reading exceeds
MaxGenerationTime or whose any counter has reached MaxSafetyIterations
reports a trip and sets the stopped-by-safety flag; a trip at the top of
a main-loop iteration unwinds the loop at once, returning the units
committed so far with the stopped flag set; and a trip at the top of a
connection-retry iteration likewise aborts the iteration with the
committed units unchanged and the stopped flag set. -/
theorem c2_safety_termination (cfg : GenConfig) (o : Oracle)
    (creator : RoomData → RoomData) (initialRoom : RoomData) :
    (((executeProceduralGeneration initialRoom cfg o creator).mainCtr : ℤ) ≤
       max cfg.maxSafetyIterations 1 ∧
     ((executeProceduralGeneration initialRoom cfg o creator).connCtr : ℤ) ≤
       max cfg.maxSafetyIterations 1 ∧
     ((executeProceduralGeneration initialRoom cfg o creator).placCtr : ℤ) ≤
       max cfg.maxSafetyIterations 1) ∧
    (∀ st : GenState,
      (o.time st.tIdx - st.startTime > cfg.maxGenerationTime ∨
       (st.mainCtr : ℤ) ≥ cfg.maxSafetyIterations ∨
       (st.connCtr : ℤ) ≥ cfg.maxSafetyIterations ∨
       (st.placCtr : ℤ) ≥ cfg.maxSafetyIterations) →
      (checkSafetyLimits cfg o st).1 = true ∧
      (checkSafetyLimits cfg o st).2.stopped = true) ∧
    (∀ (n ri : ℕ) (st : GenState), st.available ≠ [] →
      (checkSafetyLimits cfg o { st with mainCtr := st.mainCtr + 1 }).1 = true →
      (mainLoop cfg o creator (n + 1) ri st).rooms = st.rooms ∧
      (mainLoop cfg o creator (n + 1) ri st).stopped = true) ∧
    (∀ (fuel : ℕ) (retries : ℤ) (ri : ℕ) (st : GenState),
      retries < cfg.maxConnectionRetries → st.available ≠ [] →
      (checkSafetyLimits cfg o { st with connCtr := st.connCtr + 1 }).1 = true →
      (connectionRetryLoop cfg o creator ri (fuel + 1) retries st).1 = false ∧
      (connectionRetryLoop cfg o creator ri (fuel + 1) retries st).2.rooms = st.rooms ∧
      (connectionRetryLoop cfg o creator ri (fuel + 1) retries st).2.stopped = true) := by
  refine ⟨executeProceduralGeneration_ctrs initialRoom cfg o creator,
    fun st h => checkSafetyLimits_trip cfg o st h, ?_, ?_⟩
  · intro n ri st hava htrip
    have h1 : mainLoop cfg o creator (n + 1) ri st =
        (checkSafetyLimits cfg o { st with mainCtr := st.mainCtr + 1 }).2 := by
      simp only [mainLoop]
      rw [if_neg hava, if_pos htrip]
    constructor
    · rw [h1]
      exact (checkSafetyLimits_frame cfg o { st with mainCtr := st.mainCtr + 1 }).1
    · rw [h1]
      exact (checkSafetyLimits_stopped cfg o _).1 htrip
  · intro fuel retries ri st hret hava htrip
    have h1 : connectionRetryLoop cfg o creator ri (fuel + 1) retries st =
        (false, (checkSafetyLimits cfg o { st with connCtr := st.connCtr + 1 }).2) := by
      simp only [connectionRetryLoop]
      rw [if_pos ⟨hret, hava⟩, if_pos htrip]
    refine ⟨?_, ?_, ?_⟩
    · rw [h1]
    · rw [h1]
      exact (checkSafetyLimits_frame cfg o { st with connCtr := st.connCtr + 1 }).1
    · rw [h1]
      exact (checkSafetyLimits_stopped cfg o _).1 htrip

/-- Witness for C2: the default configuration with the zero oracle and
the concrete state stTrip, whose main counter sits at the 2000-iteration
ceiling: the check trips, and both loops unwind at once with the
committed rooms unchanged and the stopped flag set. -/
theorem c2_safety_termination_witness :
    (((executeProceduralGeneration (callerInitialRoom defaultConfig) defaultConfig
        zeroOracle id).mainCtr : ℤ) ≤ max defaultConfig.maxSafetyIterations 1) ∧
    ((zeroOracle.time stTrip.tIdx - stTrip.startTime > defaultConfig.maxGenerationTime ∨
      (stTrip.mainCtr : ℤ) ≥ defaultConfig.maxSafetyIterations ∨
      (stTrip.connCtr : ℤ) ≥ defaultConfig.maxSafetyIterations ∨
      (stTrip.placCtr : ℤ) ≥ defaultConfig.maxSafetyIterations) ∧
     (checkSafetyLimits defaultConfig zeroOracle stTrip).1 = true ∧
     (checkSafetyLimits defaultConfig zeroOracle stTrip).2.stopped = true) ∧
    (stTrip.available ≠ [] ∧
     (checkSafetyLimits defaultConfig zeroOracle
        { stTrip with mainCtr := stTrip.mainCtr + 1 }).1 = true ∧
     (mainLoop defaultConfig zeroOracle id (0 + 1) 1 stTrip).rooms = stTrip.rooms ∧
     (mainLoop defaultConfig zeroOracle id (0 + 1) 1 stTrip).stopped = true) ∧
    ((0 : ℤ) < defaultConfig.maxConnectionRetries ∧
     (checkSafetyLimits defaultConfig zeroOracle
        { stTrip with connCtr := stTrip.connCtr + 1 }).1 = true ∧
     (connectionRetryLoop defaultConfig zeroOracle id 1 (0 + 1) 0 stTrip).1 = false ∧
     (connectionRetryLoop defaultConfig zeroOracle id 1 (0 + 1) 0 stTrip).2.rooms =
       stTrip.rooms ∧
     (connectionRetryLoop defaultConfig zeroOracle id 1 (0 + 1) 0 stTrip).2.stopped =
       true) :=
  ⟨(c2_safety_termination defaultConfig zeroOracle id
      (callerInitialRoom defaultConfig)).1.1,
   ⟨by with_unfolding_all decide,
    (c2_safety_termination defaultConfig zeroOracle id (callerInitialRoom defaultConfig)).2.1
      stTrip (by with_unfolding_all decide)⟩,
   ⟨by with_unfolding_all decide, by with_unfolding_all decide,
    (c2_safety_termination defaultConfig zeroOracle id (callerInitialRoom defaultConfig)).2.2.1
      0 1 stTrip (by with_unfolding_all decide) (by with_unfolding_all decide)⟩,
   ⟨by with_unfolding_all decide, by with_unfolding_all decide,
    (c2_safety_termination defaultConfig zeroOracle id (callerInitialRoom defaultConfig)).2.2.2
      0 0 1 stTrip (by with_unfolding_all decide) (by with_unfolding_all decide)
      (by with_unfolding_all decide)⟩⟩
